import Mathlib

/-!
Verification development for the WebPrinter repository.

This file gives a shallow embedding of the core of the program:
the two printer backends in `print_backend.py` (validation, command
construction, queue polling, state mapping, toner normalization) and the
job pipeline / registries in `app.py` (`JobRegistry`, `process_print_job`,
`create_job`), together with theorems settling the specification claims.

External processes are modelled by environments supplying the results the
program would have observed (exit codes, stdout/stderr, timeouts); the
side effects the program performs (spawning subprocesses, sleeping,
invoking the progress callback, deleting files) are recorded as explicit
event traces so that ordering properties ("no subprocess is spawned
before validation") become statements about lists.
-/

set_option maxHeartbeats 1000000

/-! ## Python string primitives used by the source -/

/-- Characters Python treats as whitespace for `str.strip`, `str.split` and
the regex class used in `print_backend.py` (ASCII subset, which is all the
program ever produces). -/
def pyIsSpace (c : Char) : Bool :=
  c = ' ' || c = '\t' || c = '\n' || c = '\r' || c = '\x0b' || c = '\x0c'

/-- `pat` occurs as a contiguous substring of `s` (Python's `pat in s`). -/
def listContainsSub (pat : List Char) : List Char → Bool
  | [] => pat.isEmpty
  | c :: rest => pat.isPrefixOf (c :: rest) || listContainsSub pat rest

/-- Python's `needle in haystack` on strings. -/
def strContains (haystack needle : String) : Bool :=
  listContainsSub needle.toList haystack.toList

/-- Python's `str.strip()` (whitespace on both ends). -/
def pyStripList (s : List Char) : List Char :=
  ((s.dropWhile pyIsSpace).reverse.dropWhile pyIsSpace).reverse

/-- Python's `str.strip()` on `String`. -/
def pyStripStr (s : String) : String :=
  ⟨pyStripList s.toList⟩

/-- First whitespace-delimited token of a string: `s.split()[0]` when
`s.split()` is non-empty. -/
def firstToken (s : List Char) : List Char :=
  (s.dropWhile pyIsSpace).takeWhile (fun c => !(pyIsSpace c))

/-- Python's `str.lower()` on one ASCII character. -/
def pyLowerChar (c : Char) : Char :=
  if 'A' ≤ c ∧ c ≤ 'Z' then Char.ofNat (c.toNat + 32) else c

/-- Python's `str.lower()` (ASCII subset, which covers every string the
program compares after lowering). -/
def pyLower (s : String) : String :=
  ⟨s.toList.map pyLowerChar⟩

/-! ## `CupsPrinterBackend._map_state` -/

/-- `CupsPrinterBackend._map_state`: classify the free-text `lpstat`
summary line.  The `enabled` flag is the negation of a "disabled"
substring test; the state is decided by an ordered chain of substring
tests, exactly as in the source. -/
def mapState (summary : String) : String × Bool :=
  let text := pyLower summary
  let enabled := !(strContains text "disabled")
  if strContains text "printing" || strContains text "processing" then
    ("printing", enabled)
  else if strContains text "idle" || strContains text "ready" then
    ("idle", enabled)
  else if strContains text "disabled" || strContains text "stopped" then
    ("stopped", enabled)
  else
    ("unknown", enabled)

/-- Claim C6 restated as a definition, following the claim's words
(ordered substring tests on the lowercased text; `enabled` false iff the
text contains "disabled").  Compared with `mapState` by theorem. -/
def mapStateClaim (summary : String) : String × Bool :=
  let text := pyLower summary
  let state :=
    if strContains text "printing" || strContains text "processing" then "printing"
    else if strContains text "idle" || strContains text "ready" then "idle"
    else if strContains text "disabled" || strContains text "stopped" then "stopped"
    else "unknown"
  (state, !(strContains text "disabled"))

/-! ## `CupsPrinterBackend._normalize_toner_level` -/

/-- Python's `round(level / 100)` for an integer `level` with
`100 < level ≤ 10000`.  The float quotient `level / 100` is exact at every
half-integer (`q + 0.5` with `q ≤ 100` is representable) and elsewhere
within `10⁻¹³` of the rational value, so Python's round-half-to-even on
the float agrees with round-half-to-even on the rational, which is what
this function computes. -/
def pyRoundDiv100 (level : Int) : Int :=
  ((if level.toNat % 100 < 50 then level.toNat / 100
    else if 50 < level.toNat % 100 then level.toNat / 100 + 1
    else if (level.toNat / 100) % 2 = 0 then level.toNat / 100
    else level.toNat / 100 + 1 : Nat) : Int)

/-- `CupsPrinterBackend._normalize_toner_level`: normalize a raw IPP
marker level to a 0–100 percentage. -/
def normalizeTonerLevel (level : Option Int) : Option Int :=
  match level with
  | none => none
  | some l =>
    if l < 0 then none
    else if l ≤ 100 then some l
    else if l ≤ 10000 then some (max 0 (min 100 (pyRoundDiv100 l)))
    else none

/-- Claim C4 as amended: raw values in `[0,100]` pass through, values in
`(100,10000]` are divided by 100 and rounded to the nearest integer with
ties to even (Python `round` semantics), everything else is unknown. -/
def normalizeTonerClaim (level : Option Int) : Option Int :=
  match level with
  | none => none
  | some l =>
    if 0 ≤ l ∧ l ≤ 100 then some l
    else if 100 < l ∧ l ≤ 10000 then some (pyRoundDiv100 l)
    else none

/-! ## `CupsPrinterBackend._extract_job_id` -/

/-- The literal part of `REQUEST_ID_PATTERN = r"request id is ([^\s]+)"`. -/
def requestIdPat : List Char := "request id is ".toList

/-- `re.search` for `REQUEST_ID_PATTERN`: find the leftmost position where
the literal "request id is " is followed by a non-empty run of non-space
characters, and return that run. -/
def searchRequestId : List Char → Option (List Char)
  | [] => none
  | c :: rest =>
    if requestIdPat.isPrefixOf (c :: rest) then
      let tok := ((c :: rest).drop requestIdPat.length).takeWhile (fun ch => !(pyIsSpace ch))
      if tok.isEmpty then searchRequestId rest else some tok
    else searchRequestId rest

/-- `CupsPrinterBackend._extract_job_id`: pattern match on stdout, falling
back to the first whitespace-delimited token of the stripped output. -/
def extractJobId (output : String) : Option String :=
  match searchRequestId output.toList with
  | some tok => some ⟨tok⟩
  | none =>
    let cleaned := pyStripList output.toList
    if cleaned.isEmpty then none else some ⟨firstToken cleaned⟩

/-! ## Backend data model -/

/-- `PrintOptions` dataclass. -/
structure PrintOptions where
  printer : String
  copies : Int
  color : Bool
  duplex : Bool
deriving DecidableEq

/-- Captured result of a completed `subprocess.run` call. -/
structure CmdResult where
  returncode : Int
  stdout : String
  stderr : String
deriving DecidableEq

/-- `detail = result.stderr.strip() or result.stdout.strip() or "errore sconosciuto"`. -/
def cmdDetail (r : CmdResult) : String :=
  let e := pyStripStr r.stderr
  if e ≠ "" then e
  else
    let o := pyStripStr r.stdout
    if o ≠ "" then o else "errore sconosciuto"

/-- Observable actions of `CupsPrinterBackend.print_file`: spawning a
subprocess, sleeping (seconds), and invoking the progress callback. -/
inductive Ev where
  | runCmd (cmd : List String)
  | sleep (seconds : Nat)
  | prog (percent : Int) (message : String)
deriving DecidableEq

/-- Environment for one `CupsPrinterBackend.print_file` call: whether the
file exists, its path as a string, the result of the `lp` invocation, and
the results of the successive `lpstat -o` queue polls (indexed by attempt
number). -/
structure CupsEnv where
  fileExists : Bool
  pathStr : String
  lpResult : CmdResult
  queue : Nat → CmdResult

/-- The `lp` command list built by `CupsPrinterBackend.print_file`. -/
def lpCommand (opts : PrintOptions) (pathStr : String) : List String :=
  ["lp", "-d", opts.printer, "-n", toString opts.copies, "-o",
    if opts.duplex then "sides=two-sided-long-edge" else "sides=one-sided"] ++
  (if opts.color then ["-o", "print-color-mode=color", "-o", "ColorModel=RGB"]
   else ["-o", "print-color-mode=monochrome", "-o", "ColorModel=Gray"]) ++
  [pathStr]

/-- One iteration body of `CupsPrinterBackend._wait_for_release`, unrolled:
`rem` attempts remain, the current attempt number is `attempt`. -/
def waitAux (queue : Nat → CmdResult) (printer jobId : String) :
    Nat → Nat → List Ev
  | 0, _ => []
  | rem + 1, attempt =>
    let r := queue attempt
    Ev.sleep 1 :: Ev.runCmd ["lpstat", "-o", printer] ::
    (if r.returncode ≠ 0 then []
     else if !(strContains r.stdout jobId) then
       [Ev.prog 92 "La coda ha accettato il job."]
     else
       Ev.prog (min 90 (68 + (attempt : Int) * 2)) "Job ancora in coda locale." ::
       waitAux queue printer jobId rem (attempt + 1))

/-- `CupsPrinterBackend._wait_for_release`: `for attempt in range(1, 13)`. -/
def waitForRelease (queue : Nat → CmdResult) (printer jobId : String) : List Ev :=
  waitAux queue printer jobId 12 1

/-- `CupsPrinterBackend.print_file`, as the pair of its event trace and
its outcome (`Except` error message = raised `PrintBackendError`,
`ok` = returned backend job id). -/
def cupsPrintFile (env : CupsEnv) (opts : PrintOptions) :
    List Ev × Except String (Option String) :=
  if !env.fileExists then
    ([], .error "Il file da stampare non esiste.")
  else if opts.copies < 1 then
    ([], .error "Numero copie non valido.")
  else
    let cmd := lpCommand opts env.pathStr
    let pre := [Ev.prog 40 "Invio del documento alla coda locale.", Ev.runCmd cmd]
    if env.lpResult.returncode ≠ 0 then
      (pre, .error ("Comando lp fallito: " ++ cmdDetail env.lpResult))
    else
      match extractJobId env.lpResult.stdout with
      | some jid =>
          (pre ++ Ev.prog 65 ("Job " ++ jid ++ " accodato, controllo avanzamento.") ::
            waitForRelease env.queue opts.printer jid, .ok (some jid))
      | none => (pre ++ [Ev.prog 85 "Documento accodato."], .ok none)

/-- The poll round recorded by `_wait_for_release` for an attempt on which
the job id is still listed in the queue output. -/
def pollRound (printer : String) (attempt : Nat) : List Ev :=
  [Ev.sleep 1, Ev.runCmd ["lpstat", "-o", printer],
   Ev.prog (min 90 (68 + (attempt : Int) * 2)) "Job ancora in coda locale."]

/-- `rem` consecutive still-listed poll rounds starting at attempt
`attempt`. -/
def listedRounds (printer : String) : Nat → Nat → List Ev
  | 0, _ => []
  | rem + 1, attempt => pollRound printer attempt ++ listedRounds printer rem (attempt + 1)

/-- Attempt `a` observed a successful queue query in which the job id is
still listed. -/
def StillListed (queue : Nat → CmdResult) (jobId : String) (a : Nat) : Prop :=
  (queue a).returncode = 0 ∧ strContains (queue a).stdout jobId = true

instance (queue : Nat → CmdResult) (jobId : String) (a : Nat) :
    Decidable (StillListed queue jobId a) := by
  unfold StillListed; infer_instance

/-- Percent values of the progress events in a trace. -/
def percentsOf (evs : List Ev) : List Int :=
  evs.filterMap fun e => match e with
    | Ev.prog p _ => some p
    | _ => none

/-- Does the trace contain a subprocess invocation? -/
def hasRunCmd (evs : List Ev) : Bool :=
  evs.any fun e => match e with
    | Ev.runCmd _ => true
    | _ => false

/-- Is the event a subprocess invocation? -/
def isRunCmdEv (e : Ev) : Bool :=
  match e with
  | Ev.runCmd _ => true
  | _ => false

/-- Number of subprocess invocations in a trace. -/
def runCount (evs : List Ev) : Nat :=
  evs.countP isRunCmdEv

/-! ## `SumatraPrinterBackend.print_file` -/

/-- Result of the `subprocess.run` call with `timeout=180`: either the
process completed (with captured output), or `subprocess.TimeoutExpired`
was raised. -/
inductive SubprocOutcome where
  | done (r : CmdResult)
  | timedOut
deriving DecidableEq

/-- Environment for one `SumatraPrinterBackend.print_file` call.
`tempPdfId` is the path of the temporary PDF `_text_to_pdf` would create;
`tempExistsAtCheck` models the `generated_pdf.exists()` test performed
just after the submission command returns. -/
structure SumatraEnv where
  fileExists : Bool
  isTxt : Bool
  pathStr : String
  executable : String
  tempPdfId : Nat
  tempPathStr : String
  tempExistsAtCheck : Bool
  runOutcome : SubprocOutcome
deriving DecidableEq

/-- Observable actions of `SumatraPrinterBackend.print_file`. -/
inductive SumEv where
  | makeTempPdf (p : Nat)
  | runCmd (cmd : List String)
  | deleteTempPdf (p : Nat)
  | prog (percent : Int) (message : String)
deriving DecidableEq

/-- Outcome of `SumatraPrinterBackend.print_file`: normal return,
a raised `PrintBackendError`, or a `subprocess.TimeoutExpired` escaping
uncaught from line 512 of `print_backend.py`. -/
inductive SumOutcome where
  | ok (jobId : Option String)
  | backendError (msg : String)
  | timeoutExpired
deriving DecidableEq

/-- The comma-joined `-print-settings` token. -/
def sumatraSettings (opts : PrintOptions) : String :=
  String.intercalate ","
    [toString opts.copies ++ "x",
     if opts.color then "color" else "monochrome",
     if opts.duplex then "duplexlong" else "simplex"]

/-- The SumatraPDF command list. -/
def sumatraCommand (env : SumatraEnv) (opts : PrintOptions) (sourcePath : String) : List String :=
  [env.executable, "-silent", "-print-to", opts.printer,
   "-print-settings", sumatraSettings opts, sourcePath]

/-- `SumatraPrinterBackend.print_file` as event trace plus outcome.
Mirrors the source line by line: existence/copies validation, optional
`.txt` → temporary PDF rendering, command construction, the
`subprocess.run(..., timeout=180)` call (whose `TimeoutExpired` is not
caught and therefore propagates before the temp-file cleanup), cleanup of
the generated PDF, non-zero exit check, final progress report. -/
def sumatraPrintFile (env : SumatraEnv) (opts : PrintOptions) :
    List SumEv × SumOutcome :=
  if !env.fileExists then
    ([], .backendError "Il file da stampare non esiste.")
  else if opts.copies < 1 then
    ([], .backendError "Numero copie non valido.")
  else
    let generatedPdf : Option Nat := if env.isTxt then some env.tempPdfId else none
    let sourcePath := if env.isTxt then env.tempPathStr else env.pathStr
    let tempEvs : List SumEv := if env.isTxt then [SumEv.makeTempPdf env.tempPdfId] else []
    let cmd := sumatraCommand env opts sourcePath
    let pre := tempEvs ++
      [SumEv.prog 45 "Invio del documento al sistema di stampa Windows.",
       SumEv.runCmd cmd]
    match env.runOutcome with
    | .timedOut => (pre, .timeoutExpired)
    | .done r =>
      let delEvs : List SumEv :=
        match generatedPdf with
        | some p => if env.tempExistsAtCheck then [SumEv.deleteTempPdf p] else []
        | none => []
      if r.returncode ≠ 0 then
        (pre ++ delEvs, .backendError ("SumatraPDF ha fallito la stampa: " ++ cmdDetail r))
      else
        (pre ++ delEvs ++
          [SumEv.prog 90 "Documento inviato al servizio spooler."], .ok none)

/-- Percent values of the progress events in a Sumatra trace. -/
def sumPercentsOf (evs : List SumEv) : List Int :=
  evs.filterMap fun e => match e with
    | SumEv.prog p _ => some p
    | _ => none

/-- Is the event a temp-PDF deletion? -/
def isDeleteTempPdf (e : SumEv) : Bool :=
  match e with
  | SumEv.deleteTempPdf _ => true
  | _ => false

/-- Does the Sumatra trace contain a subprocess invocation? -/
def sumHasRunCmd (evs : List SumEv) : Bool :=
  evs.any fun e => match e with
    | SumEv.runCmd _ => true
    | _ => false

/-! ## `app.py`: job records and the registries -/

/-- `PrintJob` dataclass.  File paths are abstracted to numeric ids. -/
structure PrintJob where
  id : String
  filename : String
  storedPath : Option Nat
  printer : String
  colorMode : String
  copies : Int
  duplex : Bool
  status : String
  progress : Int
  message : String
  error : Option String
  printerJobId : Option String
deriving DecidableEq

/-- `UploadedFileEntry` dataclass. -/
structure UploadedFileEntry where
  id : String
  filename : String
  mimeType : String
  tempPath : Nat
  totalChunks : Int
  nextChunkIndex : Int
  uploadedBytes : Int
  storedPath : Option Nat
  completed : Bool
deriving DecidableEq

/-- Insertion-ordered association list, the model of a Python `dict`. -/
def assocLookup {β : Type} : List (String × β) → String → Option β
  | [], _ => none
  | (k, v) :: rest, key => if k = key then some v else assocLookup rest key

/-- Replace the value stored under an existing key (in-place mutation of
the object found by `dict.get`). -/
def assocSet {β : Type} : List (String × β) → String → β → List (String × β)
  | [], _, _ => []
  | (k, v) :: rest, key, w => if k = key then (k, w) :: rest else (k, v) :: assocSet rest key w

/-- `dict[key] = value`: replace if present, append otherwise. -/
def assocInsert {β : Type} (l : List (String × β)) (key : String) (w : β) :
    List (String × β) :=
  match assocLookup l key with
  | some _ => assocSet l key w
  | none => l ++ [(key, w)]

/-- Remove the (unique) entry stored under a key. -/
def assocRemove {β : Type} : List (String × β) → String → List (String × β)
  | [], _ => []
  | (k, v) :: rest, key => if k = key then rest else (k, v) :: assocRemove rest key

/-- `dict.pop(key, None)`: the removed value (if any) and the remaining map. -/
def assocPop {β : Type} (l : List (String × β)) (key : String) :
    Option β × List (String × β) :=
  match assocLookup l key with
  | none => (none, l)
  | some v => (some v, assocRemove l key)

/-- The job registry contents: job id → `PrintJob`. -/
abbrev Store : Type := List (String × PrintJob)

/-- `JobRegistry.get` (the snapshot copy is value equality in the model). -/
def lookupJob (s : Store) (jobId : String) : Option PrintJob :=
  assocLookup s jobId

/-- `JobRegistry.update`: apply field assignments to the stored record and
return the updated snapshot, or `none` (and the untouched store) if the
job id is absent.  The field assignments `**changes` are modelled by the
function `f`. -/
def registryUpdate (s : Store) (jobId : String) (f : PrintJob → PrintJob) :
    Option PrintJob × Store :=
  match lookupJob s jobId with
  | none => (none, s)
  | some j => (some (f j), assocSet s jobId (f j))

/-- `JobRegistry.create`. -/
def registryCreate (s : Store) (job : PrintJob) : Store :=
  assocInsert s job.id job

/-! ## `app.py`: the background execution pipeline (`process_print_job`) -/

/-- What the backend call performed by the pipeline did: the sequence of
`progress(percent, message)` callback invocations, and either a normal
return (carrying the backend job id) or a raised exception (carrying its
`str(exc)` message). -/
inductive BackendOutcome where
  | success (printerJobId : Option String)
  | failure (msg : String)
deriving DecidableEq

/-- A backend `print_file` run as the pipeline observes it. -/
structure BackendRunModel where
  progressCalls : List (Int × String)
  outcome : BackendOutcome
deriving DecidableEq

/-- The clamp `max(0, min(99, percent))` applied by the pipeline's
progress closure. -/
def clampProgress (p : Int) : Int := max 0 (min 99 p)

/-- One write of the progress closure in `process_print_job`. -/
def progressUpdate (s : Store) (jobId : String) (pm : Int × String) : Store :=
  (registryUpdate s jobId fun j =>
    { j with status := "printing", progress := clampProgress pm.1, message := pm.2 }).2

/-- The stores after each successive progress-callback write. -/
def progressStates (s : Store) (jobId : String) : List (Int × String) → List Store
  | [] => []
  | pm :: rest =>
    let s' := progressUpdate s jobId pm
    s' :: progressStates s' jobId rest

/-- The `status="preparing", progress=20` write performed before the try
block. -/
def preparingUpdate (s : Store) (jobId : String) : Store :=
  (registryUpdate s jobId fun j =>
    { j with status := "preparing", progress := 20, message := "Preparazione del file." }).2

/-- The terminal write: `completed` on normal return, `failed` on any
exception. -/
def terminalUpdate (s : Store) (jobId : String) (outcome : BackendOutcome) : Store :=
  match outcome with
  | .success pid =>
    (registryUpdate s jobId fun j =>
      { j with status := "completed", progress := 100,
               message := "Stampa inviata con successo.",
               printerJobId := pid, error := none }).2
  | .failure m =>
    (registryUpdate s jobId fun j =>
      { j with status := "failed", progress := 100,
               message := "Errore durante il processo di stampa.",
               error := some m }).2

/-- The failure write taken when no backend was constructed. -/
def unavailUpdate (s : Store) (jobId : String) (bootError : Option String) : Store :=
  (registryUpdate s jobId fun j =>
    { j with status := "failed", progress := 100,
             message := "Backend non disponibile.",
             error := some (bootError.getD "Configura un backend di stampa valido.") }).2

/-- Message written when the `finally` cleanup fails to unlink the file. -/
def cleanupFailMessage : String :=
  "Stampa completata, ma non riesco a eliminare il file temporaneo."

/-- Store writes performed by the `finally` block: at most one, and only
to the `message` field (when the temp file still exists and its deletion
raises `OSError`). -/
def finallyStates (s : Store) (jobId : String) (fileStillExists unlinkFails : Bool) :
    List Store :=
  match lookupJob s jobId with
  | none => []
  | some j =>
    match j.storedPath with
    | none => []
    | some _ =>
      if fileStillExists then
        if unlinkFails then
          [(registryUpdate s jobId fun j' => { j' with message := cleanupFailMessage }).2]
        else []
      else []

/-- Last element of a list, with a default for the empty list. -/
def lastD {α : Type} : List α → α → α
  | [], d => d
  | [a], _ => a
  | _ :: b :: t, d => lastD (b :: t) d

/-- The store immediately after the pipeline's terminal write. -/
def afterTerminalStore (s0 : Store) (jobId : String) (run : BackendRunModel) : Store :=
  let s1 := preparingUpdate s0 jobId
  terminalUpdate (lastD (progressStates s1 jobId run.progressCalls) s1) jobId run.outcome

/-- `process_print_job` as the sequence of job-store states it produces:
the initial store, then the store after every `jobs.update` call, in
order.  `available` is `printer_backend is not None`; `run` is what the
backend call did; `fileStillExists`/`unlinkFails` drive the `finally`
cleanup. -/
def processTrace (s0 : Store) (jobId : String) (available : Bool)
    (bootError : Option String) (run : BackendRunModel)
    (fileStillExists unlinkFails : Bool) : List Store :=
  match lookupJob s0 jobId with
  | none => [s0]
  | some _ =>
    if available then
      let s1 := preparingUpdate s0 jobId
      let sT := afterTerminalStore s0 jobId run
      s0 :: s1 :: (progressStates s1 jobId run.progressCalls ++
        sT :: finallyStates sT jobId fileStillExists unlinkFails)
    else
      [s0, unavailUpdate s0 jobId bootError]

/-- The progress of the tracked job in a store (`0` as the junk value for
an absent job; the pipeline only runs on present jobs). -/
def progAt (s : Store) (jobId : String) : Int :=
  ((lookupJob s jobId).map PrintJob.progress).getD 0

/-- The tracked job is recorded in a terminal status. -/
def TerminalAt (s : Store) (jobId : String) : Prop :=
  ∃ j, lookupJob s jobId = some j ∧ (j.status = "completed" ∨ j.status = "failed")

/-- The shape claim C2 asserts of the sequence of store states: progress
monotonically non-decreasing, pinned to 100 in every terminal state,
bounded by 100 throughout, and terminal with progress 100 at the end. -/
def ProgressInv (tr : List Store) (jobId : String) : Prop :=
  List.Chain' (· ≤ ·) (tr.map fun s => progAt s jobId) ∧
  (∀ s ∈ tr, TerminalAt s jobId → progAt s jobId = 100) ∧
  (∀ s ∈ tr, progAt s jobId ≤ 100) ∧
  (∃ s, tr.getLast? = some s ∧ TerminalAt s jobId ∧ progAt s jobId = 100)

/-- Sufficient condition on a backend run for the pipeline's progress
monotonicity: its callback percents are non-decreasing and lie in
`[40, 92]` (both concrete backends satisfy this). -/
def GoodCalls (calls : List (Int × String)) : Prop :=
  List.Chain' (· ≤ ·) (calls.map Prod.fst) ∧
  ∀ pm ∈ calls, 40 ≤ pm.1 ∧ pm.1 ≤ 92

/-- Extract the progress-callback invocations from a CUPS trace. -/
def progCallsOf (evs : List Ev) : List (Int × String) :=
  evs.filterMap fun e => match e with
    | Ev.prog p m => some (p, m)
    | _ => none

/-- Extract the progress-callback invocations from a Sumatra trace. -/
def sumProgCallsOf (evs : List SumEv) : List (Int × String) :=
  evs.filterMap fun e => match e with
    | SumEv.prog p m => some (p, m)
    | _ => none

/-- `str(exc)` of the `subprocess.TimeoutExpired` raised after 180
seconds (the exact wording comes from the Python standard library and is
irrelevant to every claim). -/
def timeoutExpiredMessage : String := "Command timed out after 180 seconds"

/-- A `CupsPrinterBackend.print_file` call as the pipeline observes it. -/
def runOfCups (env : CupsEnv) (opts : PrintOptions) : BackendRunModel :=
  let (evs, res) := cupsPrintFile env opts
  { progressCalls := progCallsOf evs,
    outcome := match res with
      | .ok pid => .success pid
      | .error m => .failure m }

/-- A `SumatraPrinterBackend.print_file` call as the pipeline observes it. -/
def runOfSumatra (env : SumatraEnv) (opts : PrintOptions) : BackendRunModel :=
  let (evs, res) := sumatraPrintFile env opts
  { progressCalls := sumProgCallsOf evs,
    outcome := match res with
      | .ok pid => .success pid
      | .backendError m => .failure m
      | .timeoutExpired => .failure timeoutExpiredMessage }

/-! ## `app.py`: `create_job` and the upload registry -/

/-- Application state touched by `create_job`: the upload registry, the
job registry, and the set of files existing on disk (paths abstracted to
numeric ids, `fs` listing the existing ones). -/
structure AppState where
  uploads : List (String × UploadedFileEntry)
  jobs : Store
  fs : List Nat
deriving DecidableEq

/-- Delete a path from the file system model (`Path.unlink`). -/
def fsRemove (fs : List Nat) (p : Nat) : List Nat :=
  fs.filter fun q => q != p

/-- A character allowed by `UPLOAD_ID_PATTERN = ^[a-zA-Z0-9_-]{8,64}$`. -/
def isUploadIdChar (c : Char) : Bool :=
  c.isAlpha || c.isDigit || c = '_' || c = '-'

/-- `_validate_upload_id`'s regex `fullmatch` on the stripped id. -/
def validUploadId (s : String) : Bool :=
  8 ≤ s.length && s.length ≤ 64 && s.toList.all isUploadIdChar

/-- `_validate_copies` bound check (`1 ≤ copies ≤ 99`). -/
def copiesValid (copies : Int) : Bool :=
  !(copies < 1 || 99 < copies)

/-- `_validate_color_mode` membership check on the lowercased mode. -/
def colorModeValid (colorMode : String) : Bool :=
  pyLower colorMode = "bw" || pyLower colorMode = "color"

/-- `_as_bool`: parse common HTML form truthy values. -/
def asBool (v : Option String) : Bool :=
  match v with
  | none => false
  | some s =>
    pyLower s = "1" || pyLower s = "true" || pyLower s = "yes" || pyLower s = "on"

/-- Python `Path(filename).name`: the last `/`-separated component. -/
def pyPathName (s : String) : String :=
  ⟨(s.toList.reverse.takeWhile fun c => !(c = '/')).reverse⟩

/-- `_error_job`: the synchronous failed snapshot rendered for a rejected
submission (it is never inserted into the job registry). -/
def errorJob (jid filename message : String) (error : Option String) : PrintJob :=
  { id := jid,
    filename := if pyPathName filename = "" then "sconosciuto" else pyPathName filename,
    storedPath := none, printer := "-", colorMode := "bw", copies := 1,
    duplex := false, status := "failed", progress := 100,
    message := message, error := error, printerJobId := none }

/-- The form data of one `POST /jobs` request. -/
structure CreateJobReq where
  uploadedFileId : String
  printer : String
  colorMode : String
  copies : Int
  duplex : Option String
  pdfPassword : Option String
deriving DecidableEq

/-- Environment of one `create_job` call: whether a backend was
constructed at boot (and the boot error otherwise), the result of the
backend's `list_printers` call, the result of `_prepare_pdf_for_print`
(whose pypdf internals are an external collaborator: either the printable
path or the message of the `ValueError` it raises), and the ids
`uuid.uuid4().hex` would produce. -/
structure CreateJobEnv where
  backendAvailable : Bool
  bootError : Option String
  listPrintersResult : Except String (List String)
  prepResult : Except String Nat
  newJobId : String
  errJobId : String

/-- Externally visible effects of `create_job`. -/
inductive AppEv where
  | backendListPrinters
  | jobCreated (jobId : String)
  | executorSubmit (job : PrintJob)
  | unlink (p : Nat)
deriving DecidableEq

/-- Response of `create_job`: the rendered job fragment, or an
`HTTPException` escaping the handler. -/
inductive CreateJobResp where
  | jobView (job : PrintJob)
  | httpError (code : Nat) (detail : String)
deriving DecidableEq

/-- Result of `_consume_uploaded_file` (which pops the entry even when a
later check fails): the HTTP 400 of a malformed id, a `ValueError`
message, or the entry together with its existing stored path. -/
inductive ConsumeRes where
  | httpBadId
  | fail (msg : String)
  | ok (entry : UploadedFileEntry) (p : Nat)
deriving DecidableEq

/-- `_consume_uploaded_file`: validate the id, pop the entry, check
completeness and on-disk existence.  Returns the outcome and the state
after the pop. -/
def consumeUploadedFile (st : AppState) (uploadedFileId : String) :
    ConsumeRes × AppState :=
  if !(validUploadId (pyStripStr uploadedFileId)) then (.httpBadId, st)
  else
    match assocPop st.uploads (pyStripStr uploadedFileId) with
    | (none, ups) =>
      (.fail "File non caricato o upload incompleto.", { st with uploads := ups })
    | (some entry, ups) =>
      if !entry.completed then
        (.fail "File non caricato o upload incompleto.", { st with uploads := ups })
      else
        match entry.storedPath with
        | none =>
          (.fail "File non caricato o upload incompleto.", { st with uploads := ups })
        | some p =>
          if p ∈ st.fs then (.ok entry p, { st with uploads := ups })
          else (.fail "File caricato non disponibile sul server.", { st with uploads := ups })

/-- The `except (ValueError, PrintBackendError)` branch of `create_job`
for the case where the upload was already consumed: delete the prepared
file when it differs from the staged one, delete the staged file, and
render the failed snapshot. -/
def errCleanupPrepared (st : AppState) (entry : UploadedFileEntry)
    (preparedPath : Option Nat) (evs : List AppEv) : AppState × List AppEv :=
  match preparedPath with
  | some pp =>
    if pp ∈ st.fs ∧ some pp ≠ entry.storedPath then
      ({ st with fs := fsRemove st.fs pp }, evs ++ [AppEv.unlink pp])
    else (st, evs)
  | none => (st, evs)

def errCleanupStored (st : AppState) (entry : UploadedFileEntry)
    (evs : List AppEv) : AppState × List AppEv :=
  match entry.storedPath with
  | some sp =>
    if sp ∈ st.fs then
      ({ st with fs := fsRemove st.fs sp }, evs ++ [AppEv.unlink sp])
    else (st, evs)
  | none => (st, evs)

def createJobErrCleanup (env : CreateJobEnv) (st : AppState)
    (entry : UploadedFileEntry) (preparedPath : Option Nat) (excMsg : String)
    (evs : List AppEv) : CreateJobResp × AppState × List AppEv :=
  (.jobView (errorJob env.errJobId entry.filename "Richiesta non valida." (some excMsg)),
   errCleanupStored (errCleanupPrepared st entry preparedPath evs).1 entry
     (errCleanupPrepared st entry preparedPath evs).2)

/-- The part of `create_job` after a successful `_consume_uploaded_file`:
validations, printer enumeration, PDF preparation, job creation and
dispatch.  `entry`/`p` are the consumed upload entry and its stored path;
`st1` is the state after the pop. -/
def createJobValidated (st1 : AppState) (env : CreateJobEnv) (req : CreateJobReq)
    (entry : UploadedFileEntry) (p : Nat) : CreateJobResp × AppState × List AppEv :=
  if !(colorModeValid req.colorMode) then
    createJobErrCleanup env st1 entry none "Modalita colore non valida." []
  else if !(copiesValid req.copies) then
    createJobErrCleanup env st1 entry none "Il numero di copie deve essere tra 1 e 99." []
  else
    match env.listPrintersResult with
    | .error m => createJobErrCleanup env st1 entry none m [AppEv.backendListPrinters]
    | .ok printers =>
      if req.printer ∉ printers then
        createJobErrCleanup env st1 entry none "Stampante selezionata non valida."
          [AppEv.backendListPrinters]
      else
        match env.prepResult with
        | .error m => createJobErrCleanup env st1 entry none m [AppEv.backendListPrinters]
        | .ok pp =>
          let st2 :=
            if pp = p then st1
            else { st1 with fs := fsRemove st1.fs p ++ [pp] }
          let queuedMessage :=
            if some pp ≠ entry.storedPath then "PDF protetto decriptato, in attesa di stampa."
            else "File caricato, in attesa di stampa."
          let job : PrintJob :=
            { id := env.newJobId, filename := entry.filename, storedPath := some pp,
              printer := req.printer, colorMode := pyLower req.colorMode,
              copies := req.copies, duplex := asBool req.duplex,
              status := "queued", progress := 8, message := queuedMessage,
              error := none, printerJobId := none }
          (.jobView job,
           { st2 with jobs := registryCreate st2.jobs job },
           [AppEv.backendListPrinters, AppEv.jobCreated job.id, AppEv.executorSubmit job])

/-- `create_job` (`POST /jobs`): the response, the resulting application
state, and the externally visible events, in order. -/
def createJob (st : AppState) (env : CreateJobEnv) (req : CreateJobReq) :
    CreateJobResp × AppState × List AppEv :=
  if !env.backendAvailable then
    (.jobView (errorJob env.errJobId "sconosciuto" "Backend di stampa non disponibile."
      (some (env.bootError.getD "Configura CUPS o SumatraPDF e riavvia l\x27applicazione."))),
     st, [])
  else
    match consumeUploadedFile st req.uploadedFileId with
    | (.httpBadId, st') => (.httpError 400 "Upload ID non valido.", st', [])
    | (.fail msg, st') =>
      (.jobView (errorJob env.errJobId "sconosciuto" "Richiesta non valida." (some msg)),
       st', [])
    | (.ok entry p, st') => createJobValidated st' env req entry p

/-- One of the four post-consumption validation failures enumerated by
claim C10: invalid color mode, copies out of bounds, printer not in the
enumerated list, or PDF preparation failure. -/
def FailAfterConsume (env : CreateJobEnv) (req : CreateJobReq) : Prop :=
  colorModeValid req.colorMode = false ∨
  copiesValid req.copies = false ∨
  (∃ ps, env.listPrintersResult = .ok ps ∧ req.printer ∉ ps) ∨
  (∃ m, env.prepResult = .error m)

/-! ## Concrete fixtures used by witnesses -/

/-- A queued job as `create_job` stores it before dispatch. -/
def sampleJob : PrintJob :=
  { id := "job1", filename := "doc.pdf", storedPath := some 3,
    printer := "HPLaser", colorMode := "bw", copies := 2, duplex := true,
    status := "queued", progress := 8,
    message := "File caricato, in attesa di stampa.", error := none,
    printerJobId := none }

/-- A one-job store. -/
def sampleStore : Store := [("job1", sampleJob)]

/-- Valid options for a two-copy duplex monochrome job. -/
def sampleOpts : PrintOptions :=
  { printer := "HPLaser", copies := 2, color := false, duplex := true }

/-- Options with an invalid copy count. -/
def badOpts : PrintOptions :=
  { printer := "HPLaser", copies := 0, color := false, duplex := false }

/-- Queue polls: the job stays listed for two attempts, then disappears. -/
def sampleQueue : Nat → CmdResult := fun a =>
  if a ≤ 2 then { returncode := 0, stdout := "HPLaser-123 user 1024", stderr := "" }
  else { returncode := 0, stdout := "", stderr := "" }

/-- A successful CUPS submission environment. -/
def sampleCupsEnv : CupsEnv :=
  { fileExists := true, pathStr := "/uploads/doc.pdf",
    lpResult := { returncode := 0,
                  stdout := "request id is HPLaser-123 (1 file(s))", stderr := "" },
    queue := sampleQueue }

/-- A CUPS environment whose file is missing. -/
def missingFileCupsEnv : CupsEnv :=
  { fileExists := false, pathStr := "/uploads/gone.pdf",
    lpResult := { returncode := 0, stdout := "", stderr := "" },
    queue := sampleQueue }

/-- A Sumatra environment for a `.txt` job whose submission command hits
the 180-second wall-clock timeout. -/
def timeoutSumatraEnv : SumatraEnv :=
  { fileExists := true, isTxt := true, pathStr := "C:/uploads/doc.txt",
    executable := "C:/Program Files/SumatraPDF/SumatraPDF.exe",
    tempPdfId := 7, tempPathStr := "C:/temp/webprinter_text_7.pdf",
    tempExistsAtCheck := true, runOutcome := .timedOut }

/-- A Sumatra environment whose file is missing. -/
def missingFileSumatraEnv : SumatraEnv :=
  { fileExists := false, isTxt := false, pathStr := "C:/uploads/gone.pdf",
    executable := "C:/Program Files/SumatraPDF/SumatraPDF.exe",
    tempPdfId := 7, tempPathStr := "C:/temp/webprinter_text_7.pdf",
    tempExistsAtCheck := true,
    runOutcome := .done { returncode := 0, stdout := "", stderr := "" } }

/-- A completed staged upload. -/
def sampleEntry : UploadedFileEntry :=
  { id := "upload-file-0001", filename := "doc.pdf",
    mimeType := "application/pdf", tempPath := 1, totalChunks := 1,
    nextChunkIndex := 1, uploadedBytes := 100, storedPath := some 3,
    completed := true }

/-- Application state holding that one staged upload. -/
def sampleAppState : AppState :=
  { uploads := [("upload-file-0001", sampleEntry)], jobs := [], fs := [3] }

/-- A healthy `create_job` environment. -/
def sampleCreateEnv : CreateJobEnv :=
  { backendAvailable := true, bootError := none,
    listPrintersResult := .ok ["HPLaser"], prepResult := .ok 3,
    newJobId := "newjob1", errJobId := "errjob1" }

/-- A request whose copy count is out of bounds. -/
def badCopiesReq : CreateJobReq :=
  { uploadedFileId := "upload-file-0001", printer := "HPLaser",
    colorMode := "bw", copies := 0, duplex := none, pdfPassword := none }

/-- A backend run failing with the message of the spec's stub backend. -/
def offlineRun : BackendRunModel :=
  { progressCalls := [(40, "Invio del documento alla coda locale.")],
    outcome := .failure "printer offline" }

/-! # Theorems -/

/-! ## C4: toner-level normalization -/

/-- The rounding bound: for `100 < l ≤ 10000` the half-even rounding of
`l / 100` lies in `[1, 100]`, so the clamp in the source is the
identity. -/
theorem pyRoundDiv100_bounds (l : Int) (h1 : 100 < l) (h2 : l ≤ 10000) :
    1 ≤ pyRoundDiv100 l ∧ pyRoundDiv100 l ≤ 100 := by
  unfold pyRoundDiv100
  split_ifs <;> omega

/-- C4, counterexample to the claim as stated: on raw level 150 the code
returns 2 (Python `round(1.5)` rounds half to even), not the
rounded-down value `150 / 100 = 1`. -/
theorem normalizeToner_not_round_down :
    normalizeTonerLevel (some 150) ≠ some (Int.ediv 150 100) ∧
    normalizeTonerLevel (some 150) = some 2 := by
  constructor
  · decide
  · decide

/-- C4 (amended): `_normalize_toner_level` passes values in `[0,100]`
through, maps values in `(100,10000]` to `level / 100` rounded to the
nearest integer with ties to even (Python `round` semantics), and yields
unknown for negative, absent, or above-10000 values; raw 57 ↦ 57,
8000 ↦ 80, −1 ↦ unknown. -/
theorem normalizeToner_matches_amended_claim :
    (∀ l, normalizeTonerLevel l = normalizeTonerClaim l) ∧
    normalizeTonerLevel (some 57) = some 57 ∧
    normalizeTonerLevel (some 8000) = some 80 ∧
    normalizeTonerLevel (some (-1)) = none ∧
    normalizeTonerLevel none = none := by
  refine ⟨fun l => ?_, by decide, by decide, by decide, rfl⟩
  cases l with
  | none => rfl
  | some v =>
    simp only [normalizeTonerLevel, normalizeTonerClaim]
    split_ifs with h1 h2 h3 h4 h5 h6 <;> try (first | rfl | omega)
    · have := pyRoundDiv100_bounds v (by omega) (by omega)
      congr 1
      omega

/-! ## C6: POSIX free-text state mapping -/

/-- C6: `_map_state` agrees with the claim's ordered substring
classification everywhere, and on the three quoted examples. -/
theorem mapState_matches_claim :
    (∀ s, mapState s = mapStateClaim s) ∧
    mapState "printer is printing, ready" = ("printing", true) ∧
    mapState "printer disabled, stopped" = ("stopped", false) ∧
    mapState "qualcosa di imprevisto" = ("unknown", true) := by
  refine ⟨fun s => ?_, by decide, by decide, by decide⟩
  simp only [mapState, mapStateClaim]
  split_ifs <;> rfl

/-! ## C5: Sumatra temp-PDF cleanup and timeout surfacing -/

/-- C5 (code bug exhibit): when the submission of a rendered `.txt`
expires the 180-second timeout, `subprocess.TimeoutExpired` propagates
from `print_file` before the cleanup line runs — the temporary PDF is
never deleted and the surfaced exception is not a `PrintBackendError`. -/
theorem sumatraPrintFile_timeout_leaks_temp :
    (sumatraPrintFile timeoutSumatraEnv sampleOpts).2 = SumOutcome.timeoutExpired ∧
    ((sumatraPrintFile timeoutSumatraEnv sampleOpts).1.all
      fun e => !(isDeleteTempPdf e)) = true ∧
    SumEv.makeTempPdf 7 ∈ (sumatraPrintFile timeoutSumatraEnv sampleOpts).1 ∧
    ∀ m, (sumatraPrintFile timeoutSumatraEnv sampleOpts).2 ≠ SumOutcome.backendError m := by
  refine ⟨by decide, by decide, by decide, ?_⟩
  intro m h
  rw [show (sumatraPrintFile timeoutSumatraEnv sampleOpts).2 = SumOutcome.timeoutExpired
    from by decide] at h
  exact SumOutcome.noConfusion h

/-! ## C8: `JobRegistry.update` on an absent id -/

/-- C8: updating a job id that is not in the store returns `none`, leaves
the whole mapping unchanged, and repeating the call (with any further
field assignments) again returns `none` and changes nothing. -/
theorem registryUpdate_absent_noop (s : Store) (jobId : String)
    (f g : PrintJob → PrintJob) (h : lookupJob s jobId = none) :
    registryUpdate s jobId f = (none, s) ∧
    registryUpdate (registryUpdate s jobId f).2 jobId g = (none, s) := by
  have h1 : registryUpdate s jobId f = (none, s) := by
    unfold registryUpdate
    rw [h]
  exact ⟨h1, by rw [h1]; unfold registryUpdate; rw [h]⟩

/-- Witness for C8 at a concrete store and id. -/
theorem registryUpdate_absent_noop_witness :
    lookupJob sampleStore "missing" = none ∧
    (registryUpdate sampleStore "missing" (fun j => { j with progress := 50 }) =
      (none, sampleStore) ∧
     registryUpdate (registryUpdate sampleStore "missing"
        (fun j => { j with progress := 50 })).2 "missing"
        (fun j => { j with status := "failed" }) = (none, sampleStore)) :=
  ⟨by decide,
   registryUpdate_absent_noop sampleStore "missing" _ _ (by decide)⟩

/-! ## C3: validation precedes any subprocess -/

/-- C3: on both backends, a missing file or a copy count below 1 makes
`print_file` raise `PrintBackendError` with an empty event trace — so no
subprocess is spawned and the progress callback is never invoked. -/
theorem printFile_validates_before_subprocess :
    (∀ (env : CupsEnv) (opts : PrintOptions),
      env.fileExists = false ∨ opts.copies < 1 →
      (∃ m, (cupsPrintFile env opts).2 = Except.error m) ∧
      (cupsPrintFile env opts).1 = []) ∧
    (∀ (env : SumatraEnv) (opts : PrintOptions),
      env.fileExists = false ∨ opts.copies < 1 →
      (∃ m, (sumatraPrintFile env opts).2 = SumOutcome.backendError m) ∧
      (sumatraPrintFile env opts).1 = []) := by
  constructor
  · intro env opts h
    by_cases hf : env.fileExists = true
    · have hc : opts.copies < 1 := by
        rcases h with h | h
        · rw [hf] at h; cases h
        · exact h
      have he : cupsPrintFile env opts =
          ([], .error "Numero copie non valido.") := by
        unfold cupsPrintFile; simp [hf, hc]
      rw [he]; exact ⟨⟨_, rfl⟩, rfl⟩
    · have hf' : env.fileExists = false := by simpa using hf
      have he : cupsPrintFile env opts =
          ([], .error "Il file da stampare non esiste.") := by
        unfold cupsPrintFile; simp [hf']
      rw [he]; exact ⟨⟨_, rfl⟩, rfl⟩
  · intro env opts h
    by_cases hf : env.fileExists = true
    · have hc : opts.copies < 1 := by
        rcases h with h | h
        · rw [hf] at h; cases h
        · exact h
      have he : sumatraPrintFile env opts =
          ([], .backendError "Numero copie non valido.") := by
        unfold sumatraPrintFile; simp [hf, hc]
      rw [he]; exact ⟨⟨_, rfl⟩, rfl⟩
    · have hf' : env.fileExists = false := by simpa using hf
      have he : sumatraPrintFile env opts =
          ([], .backendError "Il file da stampare non esiste.") := by
        unfold sumatraPrintFile; simp [hf']
      rw [he]; exact ⟨⟨_, rfl⟩, rfl⟩

/-- Witness for C3: a missing file on the POSIX backend and an invalid
copy count on the Windows backend. -/
theorem printFile_validates_before_subprocess_witness :
    (missingFileCupsEnv.fileExists = false ∨ sampleOpts.copies < 1) ∧
    ((∃ m, (cupsPrintFile missingFileCupsEnv sampleOpts).2 = Except.error m) ∧
      (cupsPrintFile missingFileCupsEnv sampleOpts).1 = []) ∧
    ((∃ m, (sumatraPrintFile missingFileSumatraEnv badOpts).2 = SumOutcome.backendError m) ∧
      (sumatraPrintFile missingFileSumatraEnv badOpts).1 = []) :=
  ⟨Or.inl (by decide),
   printFile_validates_before_subprocess.1 missingFileCupsEnv sampleOpts (Or.inl (by decide)),
   printFile_validates_before_subprocess.2 missingFileSumatraEnv badOpts (Or.inr (by decide))⟩

/-! ## C7: the `_wait_for_release` polling loop -/

@[simp] theorem percentsOf_nil : percentsOf [] = [] := rfl

@[simp] theorem percentsOf_cons_prog (p : Int) (m : String) (evs : List Ev) :
    percentsOf (Ev.prog p m :: evs) = p :: percentsOf evs := rfl

@[simp] theorem percentsOf_cons_run (c : List String) (evs : List Ev) :
    percentsOf (Ev.runCmd c :: evs) = percentsOf evs := rfl

@[simp] theorem percentsOf_cons_sleep (n : Nat) (evs : List Ev) :
    percentsOf (Ev.sleep n :: evs) = percentsOf evs := rfl

@[simp] theorem percentsOf_append (l1 l2 : List Ev) :
    percentsOf (l1 ++ l2) = percentsOf l1 ++ percentsOf l2 :=
  List.filterMap_append l1 l2 _

@[simp] theorem isRunCmdEv_run (c : List String) : isRunCmdEv (Ev.runCmd c) = true := rfl

@[simp] theorem isRunCmdEv_sleep (n : Nat) : isRunCmdEv (Ev.sleep n) = false := rfl

@[simp] theorem isRunCmdEv_prog (p : Int) (m : String) :
    isRunCmdEv (Ev.prog p m) = false := rfl

/-- The loop body when the job id is still listed on the current attempt. -/
theorem waitAux_listed_step (queue : Nat → CmdResult) (printer jid : String)
    (n attempt : Nat) (h0 : (queue attempt).returncode = 0)
    (hc : strContains (queue attempt).stdout jid = true) :
    waitAux queue printer jid (n + 1) attempt =
      Ev.sleep 1 :: Ev.runCmd ["lpstat", "-o", printer] ::
      Ev.prog (min 90 (68 + (attempt : Int) * 2)) "Job ancora in coda locale." ::
      waitAux queue printer jid n (attempt + 1) := by
  conv_lhs => rw [waitAux]
  simp [h0, hc]

/-- The loop body when the queue query succeeds but no longer lists the
job id. -/
theorem waitAux_released_step (queue : Nat → CmdResult) (printer jid : String)
    (n attempt : Nat) (h0 : (queue attempt).returncode = 0)
    (hc : ¬ strContains (queue attempt).stdout jid = true) :
    waitAux queue printer jid (n + 1) attempt =
      [Ev.sleep 1, Ev.runCmd ["lpstat", "-o", printer],
       Ev.prog 92 "La coda ha accettato il job."] := by
  conv_lhs => rw [waitAux]
  simp [h0, hc]

/-- The loop body when the queue query fails. -/
theorem waitAux_failed_step (queue : Nat → CmdResult) (printer jid : String)
    (n attempt : Nat) (h0 : ¬ (queue attempt).returncode = 0) :
    waitAux queue printer jid (n + 1) attempt =
      [Ev.sleep 1, Ev.runCmd ["lpstat", "-o", printer]] := by
  conv_lhs => rw [waitAux]
  simp [h0]

/-- Percent values reported by the polling loop: non-decreasing, bounded
below by `min 90 (68 + attempt*2)` and above by 92. -/
theorem waitAux_percents (queue : Nat → CmdResult) (printer jid : String) :
    ∀ (rem attempt : Nat),
      List.Chain' (· ≤ ·) (percentsOf (waitAux queue printer jid rem attempt)) ∧
      ∀ p ∈ percentsOf (waitAux queue printer jid rem attempt),
        min 90 (68 + (attempt : Int) * 2) ≤ p ∧ p ≤ 92 := by
  intro rem
  induction rem with
  | zero => intro attempt; exact ⟨List.chain'_nil, by simp [waitAux]⟩
  | succ n ih =>
    intro attempt
    by_cases h0 : (queue attempt).returncode = 0
    · by_cases hc : strContains (queue attempt).stdout jid = true
      · rw [waitAux_listed_step queue printer jid n attempt h0 hc,
          percentsOf_cons_sleep, percentsOf_cons_run, percentsOf_cons_prog]
        obtain ⟨ihc, ihb⟩ := ih (attempt + 1)
        have hcast : ((attempt + 1 : Nat) : Int) = (attempt : Int) + 1 := by
          push_cast; ring
        constructor
        · refine List.chain'_cons'.mpr ⟨?_, ihc⟩
          intro q hq
          have hb := (ihb q (List.mem_of_mem_head? hq)).1
          rw [hcast] at hb
          omega
        · intro p hp
          rcases List.mem_cons.mp hp with hpe | hp
          · subst hpe
            have h90 : min (90 : Int) (68 + (attempt : Int) * 2) ≤ 90 :=
              min_le_left _ _
            exact ⟨le_refl _, by omega⟩
          · obtain ⟨hb1, hb2⟩ := ihb p hp
            rw [hcast] at hb1
            exact ⟨by omega, hb2⟩
      · rw [waitAux_released_step queue printer jid n attempt h0 hc]
        refine ⟨by simp, ?_⟩
        intro p hp
        simp only [percentsOf_cons_sleep, percentsOf_cons_run, percentsOf_cons_prog,
          percentsOf_nil, List.mem_singleton] at hp
        subst hp
        have h90 : min (90 : Int) (68 + (attempt : Int) * 2) ≤ 90 := min_le_left _ _
        exact ⟨by omega, by omega⟩
    · rw [waitAux_failed_step queue printer jid n attempt h0]
      refine ⟨by simp, ?_⟩
      intro p hp
      simp at hp

/-- At most `rem` queue polls are performed. -/
theorem waitAux_runCount (queue : Nat → CmdResult) (printer jid : String) :
    ∀ (rem attempt : Nat), runCount (waitAux queue printer jid rem attempt) ≤ rem := by
  intro rem
  induction rem with
  | zero => intro a; simp [waitAux, runCount]
  | succ n ih =>
    intro a
    by_cases h0 : (queue a).returncode = 0
    · by_cases hc : strContains (queue a).stdout jid = true
      · rw [waitAux_listed_step queue printer jid n a h0 hc]
        have := ih (a + 1)
        simp [runCount, List.countP_cons] at this ⊢
        omega
      · rw [waitAux_released_step queue printer jid n a h0 hc]
        simp [runCount, List.countP_cons]
    · rw [waitAux_failed_step queue printer jid n a h0]
      simp [runCount, List.countP_cons]

/-- If the job stays listed for every attempt in the window, the loop runs
all its rounds. -/
theorem waitAux_all_listed (queue : Nat → CmdResult) (printer jid : String) :
    ∀ (rem attempt : Nat),
      (∀ j, attempt ≤ j → j < attempt + rem → StillListed queue jid j) →
      waitAux queue printer jid rem attempt = listedRounds printer rem attempt := by
  intro rem
  induction rem with
  | zero => intro attempt _; rfl
  | succ n ih =>
    intro attempt h
    obtain ⟨h0, hc⟩ := h attempt le_rfl (by omega)
    rw [waitAux_listed_step queue printer jid n attempt h0 hc,
      ih (attempt + 1) (fun j hj1 hj2 => h j (by omega) (by omega))]
    simp [listedRounds, pollRound]

/-- If attempt `i` is the first one in the window on which the job is not
listed (queue failure or disappearance), the loop runs `i - attempt` full
rounds, polls once more, reports 92 exactly when the query succeeded, and
stops. -/
theorem waitAux_stops (queue : Nat → CmdResult) (printer jid : String) :
    ∀ (rem attempt i : Nat), attempt ≤ i → i < attempt + rem →
      (∀ j, attempt ≤ j → j < i → StillListed queue jid j) →
      ¬ StillListed queue jid i →
      waitAux queue printer jid rem attempt =
        listedRounds printer (i - attempt) attempt ++
        [Ev.sleep 1, Ev.runCmd ["lpstat", "-o", printer]] ++
        (if (queue i).returncode = 0 then
          [Ev.prog 92 "La coda ha accettato il job."] else []) := by
  intro rem
  induction rem with
  | zero => intro attempt i h1 h2; omega
  | succ n ih =>
    intro attempt i h1 h2 hall hstop
    by_cases hi : i = attempt
    · subst hi
      have hsub : i - i = 0 := by omega
      rw [hsub]
      by_cases h0 : (queue i).returncode = 0
      · have hc : ¬ strContains (queue i).stdout jid = true :=
          fun hc => hstop ⟨h0, hc⟩
        rw [waitAux_released_step queue printer jid n i h0 hc]
        simp [listedRounds, h0]
      · rw [waitAux_failed_step queue printer jid n i h0]
        simp [listedRounds, h0]
    · have hlt : attempt < i := by omega
      obtain ⟨h0, hc⟩ := hall attempt le_rfl hlt
      rw [waitAux_listed_step queue printer jid n attempt h0 hc,
        ih (attempt + 1) i (by omega) (by omega)
          (fun j hj1 hj2 => hall j (by omega) hj2) hstop]
      have hsub : i - attempt = (i - (attempt + 1)) + 1 := by omega
      rw [hsub]
      simp [listedRounds, pollRound]

/-- All in-queue progress values lie in `(68, 90]`. -/
theorem listedRounds_percents (printer : String) :
    ∀ (rem a0 : Nat), 1 ≤ a0 →
      ∀ p ∈ percentsOf (listedRounds printer rem a0), 68 < p ∧ p ≤ 90 := by
  intro rem
  induction rem with
  | zero => intro a0 _ p hp; simp [listedRounds] at hp
  | succ n ih =>
    intro a0 h p hp
    simp only [listedRounds, pollRound, percentsOf_append, List.cons_append,
      List.nil_append, percentsOf_cons_sleep, percentsOf_cons_run,
      percentsOf_cons_prog, List.mem_cons, List.mem_append] at hp
    rcases hp with hpe | hp
    · subst hpe
      have h1 : (1 : Int) ≤ (a0 : Int) := by exact_mod_cast h
      exact ⟨by omega, min_le_left _ _⟩
    · exact ih (a0 + 1) (by omega) p hp

/-- C7: with a request id in hand, `print_file` polls `lpstat -o` at
1-second intervals at most 12 times; while the job id stays listed each
round sleeps 1 second, polls once and reports `min 90 (68 + attempt*2)`
(values monotonically non-decreasing, in the range `(68, 90]`); as soon
as a poll no longer lists the job id it reports 92 and stops, and a
failed queue query stops the polling at once (without a report). -/
theorem waitForRelease_poll_contract (queue : Nat → CmdResult) (printer jid : String) :
    runCount (waitForRelease queue printer jid) ≤ 12 ∧
    List.Chain' (· ≤ ·) (percentsOf (waitForRelease queue printer jid)) ∧
    (∀ p ∈ percentsOf (waitForRelease queue printer jid), 68 < p ∧ p ≤ 92) ∧
    (∀ rem a0, 1 ≤ a0 →
      ∀ p ∈ percentsOf (listedRounds printer rem a0), 68 < p ∧ p ≤ 90) ∧
    ((∀ a, 1 ≤ a → a ≤ 12 → StillListed queue jid a) →
      waitForRelease queue printer jid = listedRounds printer 12 1) ∧
    (∀ i, 1 ≤ i → i ≤ 12 →
      (∀ j, 1 ≤ j → j < i → StillListed queue jid j) →
      ¬ StillListed queue jid i →
      waitForRelease queue printer jid =
        listedRounds printer (i - 1) 1 ++
        [Ev.sleep 1, Ev.runCmd ["lpstat", "-o", printer]] ++
        (if (queue i).returncode = 0 then
          [Ev.prog 92 "La coda ha accettato il job."] else [])) := by
  refine ⟨waitAux_runCount queue printer jid 12 1,
    (waitAux_percents queue printer jid 12 1).1, ?_,
    listedRounds_percents printer, ?_, ?_⟩
  · intro p hp
    obtain ⟨hb1, hb2⟩ := (waitAux_percents queue printer jid 12 1).2 p hp
    have h70 : min (90 : Int) (68 + (1 : Nat) * 2) = 70 := by norm_num
    rw [h70] at hb1
    exact ⟨by omega, hb2⟩
  · intro h
    exact waitAux_all_listed queue printer jid 12 1 (fun j hj1 hj2 => h j hj1 (by omega))
  · intro i h1 h2 hall hstop
    exact waitAux_stops queue printer jid 12 1 i h1 (by omega) hall hstop

/-- Witness for C7: the sample queue lists the job for attempts 1 and 2
and no longer lists it on attempt 3. -/
theorem waitForRelease_poll_contract_witness :
    (¬ StillListed sampleQueue "HPLaser-123" 3) ∧
    waitForRelease sampleQueue "HPLaser" "HPLaser-123" =
      listedRounds "HPLaser" (3 - 1) 1 ++
      [Ev.sleep 1, Ev.runCmd ["lpstat", "-o", "HPLaser"]] ++
      (if (sampleQueue 3).returncode = 0 then
        [Ev.prog 92 "La coda ha accettato il job."] else []) := by
  refine ⟨by decide, ?_⟩
  refine (waitForRelease_poll_contract sampleQueue "HPLaser" "HPLaser-123").2.2.2.2.2 3
    (by decide) (by decide) ?_ (by decide)
  intro j h1 h2
  have hj : j = 1 ∨ j = 2 := by omega
  rcases hj with rfl | rfl
  · exact (by decide)
  · exact (by decide)

/-! ## C1: the pipeline's terminal transition -/

/-- Setting a present key makes later lookups return the new value. -/
theorem assocLookup_set_self {β : Type} (l : List (String × β)) (k : String)
    (v w : β) (h : assocLookup l k = some v) :
    assocLookup (assocSet l k w) k = some w := by
  induction l with
  | nil => simp [assocLookup] at h
  | cons hd tl ih =>
    obtain ⟨k', v'⟩ := hd
    by_cases hk : k' = k
    · simp [assocSet, assocLookup, hk]
    · simp only [assocLookup, hk, if_false] at h
      simp [assocSet, assocLookup, hk]
      exact ih h

/-- `JobRegistry.update` on a present id stores and returns `f j`. -/
theorem lookupJob_registryUpdate_self (s : Store) (jobId : String)
    (f : PrintJob → PrintJob) (j : PrintJob) (h : lookupJob s jobId = some j) :
    lookupJob (registryUpdate s jobId f).2 jobId = some (f j) := by
  unfold registryUpdate
  rw [h]
  exact assocLookup_set_self s jobId j (f j) h

/-- `lastD` of a non-empty list ignores the default. -/
theorem lastD_cons_irrel {α : Type} :
    ∀ (l : List α) (a d d' : α), lastD (a :: l) d = lastD (a :: l) d' := by
  intro l
  induction l with
  | nil => intro a d d'; rfl
  | cons b t ih => intro a d d'; exact ih b d d'

/-- Peeling the head off a `lastD`. -/
theorem lastD_cons {α : Type} (a : α) (l : List α) (d : α) :
    lastD (a :: l) d = lastD l a := by
  cases l with
  | nil => rfl
  | cons b t => exact lastD_cons_irrel t b d a

/-- `lastD` over an append ending in a known cons. -/
theorem lastD_append_cons {α : Type} :
    ∀ (l : List α) (a : α) (m : List α) (d : α),
      lastD (l ++ a :: m) d = lastD m a := by
  intro l
  induction l with
  | nil => intro a m d; exact lastD_cons a m d
  | cons hd tl ih =>
    intro a m d
    have hne : tl ++ a :: m ≠ [] := by simp
    obtain ⟨x, rest, hx⟩ := List.exists_cons_of_ne_nil hne
    rw [List.cons_append, hx]
    show lastD (x :: rest) d = lastD m a
    rw [← hx]
    exact ih a m d

/-- `lastD` of `l ++ [a]` is `a`. -/
theorem lastD_concat {α : Type} (l : List α) (a d : α) :
    lastD (l ++ [a]) d = a :=
  lastD_append_cons l a [] d

/-- Facts about the stores written by the progress closure: the mapped
progress values are the clamped percents, every intermediate store holds
the job with status "printing", and the job stays present at the end. -/
theorem progressStates_facts (jobId : String) :
    ∀ (calls : List (Int × String)) (s : Store) (j : PrintJob),
      lookupJob s jobId = some j →
      ((progressStates s jobId calls).map (fun t => progAt t jobId) =
        calls.map (fun pm => clampProgress pm.1)) ∧
      (∀ t ∈ progressStates s jobId calls,
        ∃ j', lookupJob t jobId = some j' ∧ j'.status = "printing") ∧
      (∃ j', lookupJob (lastD (progressStates s jobId calls) s) jobId = some j') := by
  intro calls
  induction calls with
  | nil =>
    intro s j h
    exact ⟨rfl, by simp [progressStates], ⟨j, by simpa [progressStates, lastD] using h⟩⟩
  | cons pm rest ih =>
    intro s j h
    have h' : lookupJob (progressUpdate s jobId pm) jobId =
        some { j with status := "printing", progress := clampProgress pm.1,
                      message := pm.2 } := by
      unfold progressUpdate
      exact lookupJob_registryUpdate_self s jobId _ j h
    obtain ⟨hmap, hmem, hlast⟩ := ih (progressUpdate s jobId pm) _ h'
    have hps : progressStates s jobId (pm :: rest) =
        progressUpdate s jobId pm ::
          progressStates (progressUpdate s jobId pm) jobId rest := rfl
    refine ⟨?_, ?_, ?_⟩
    · rw [hps, List.map_cons, hmap, List.map_cons]
      congr 1
      simp [progAt, h']
    · intro t ht
      rw [hps, List.mem_cons] at ht
      rcases ht with rfl | ht
      · exact ⟨_, h', rfl⟩
      · exact hmem t ht
    · obtain ⟨j', hj'⟩ := hlast
      refine ⟨j', ?_⟩
      rw [hps, lastD_cons]
      exact hj'

/-- Shape of the `finally` writes: none, or a single message-only update
that preserves status and progress. -/
theorem finallyStates_facts (s : Store) (jobId : String) (fe uf : Bool)
    (j : PrintJob) (h : lookupJob s jobId = some j) :
    finallyStates s jobId fe uf = [] ∨
    (∃ u j', finallyStates s jobId fe uf = [u] ∧ lookupJob u jobId = some j' ∧
      j'.status = j.status ∧ j'.progress = j.progress) := by
  cases hsp : j.storedPath with
  | none => left; simp [finallyStates, h, hsp]
  | some p =>
    cases fe with
    | false => left; simp [finallyStates, h, hsp]
    | true =>
      cases uf with
      | false => left; simp [finallyStates, h, hsp]
      | true =>
        right
        have hu : finallyStates s jobId true true =
            [(registryUpdate s jobId fun j' =>
              { j' with message := cleanupFailMessage }).2] := by
          simp [finallyStates, h, hsp]
        have h2 : lookupJob (registryUpdate s jobId fun j' =>
            { j' with message := cleanupFailMessage }).2 jobId =
            some { j with message := cleanupFailMessage } :=
          lookupJob_registryUpdate_self s jobId _ j h
        exact ⟨_, _, hu, h2, rfl, rfl⟩

/-- C1: for every job found in the store and every backend run, the
pipeline writes the terminal transition: on normal return `completed`
with progress 100, the returned backend job id, and the error cleared; on
any exception `failed` with progress 100, the error set to the exception
text, and the generic failure message.  Whatever the outcome (including
arbitrary exception messages), the run ends with the job in a terminal
status — no exception escapes the worker. -/
theorem pipeline_terminal_write (s0 : Store) (jobId : String) (snap : PrintJob)
    (run : BackendRunModel) (bootError : Option String) (fe uf : Bool)
    (h0 : lookupJob s0 jobId = some snap) :
    afterTerminalStore s0 jobId run ∈ processTrace s0 jobId true bootError run fe uf ∧
    (∀ pid, run.outcome = .success pid →
      ∃ j, lookupJob (afterTerminalStore s0 jobId run) jobId = some j ∧
        j.status = "completed" ∧ j.progress = 100 ∧ j.printerJobId = pid ∧
        j.error = none) ∧
    (∀ m, run.outcome = .failure m →
      ∃ j, lookupJob (afterTerminalStore s0 jobId run) jobId = some j ∧
        j.status = "failed" ∧ j.progress = 100 ∧ j.error = some m ∧
        j.message = "Errore durante il processo di stampa.") ∧
    (∃ j, lookupJob
        (lastD (processTrace s0 jobId true bootError run fe uf) s0) jobId = some j ∧
      (j.status = "completed" ∨ j.status = "failed")) := by
  have h1 : lookupJob (preparingUpdate s0 jobId) jobId =
      some { snap with status := "preparing", progress := 20,
                       message := "Preparazione del file." } := by
    unfold preparingUpdate
    exact lookupJob_registryUpdate_self s0 jobId _ snap h0
  obtain ⟨-, -, jP, hP⟩ :=
    progressStates_facts jobId run.progressCalls (preparingUpdate s0 jobId) _ h1
  have htr : processTrace s0 jobId true bootError run fe uf =
      s0 :: preparingUpdate s0 jobId ::
      (progressStates (preparingUpdate s0 jobId) jobId run.progressCalls ++
        afterTerminalStore s0 jobId run ::
        finallyStates (afterTerminalStore s0 jobId run) jobId fe uf) := by
    unfold processTrace
    rw [h0]
    rfl
  have hsucc : ∀ pid, run.outcome = .success pid →
      lookupJob (afterTerminalStore s0 jobId run) jobId =
      some { jP with status := "completed", progress := 100,
                     message := "Stampa inviata con successo.",
                     printerJobId := pid, error := none } := by
    intro pid hpid
    unfold afterTerminalStore terminalUpdate
    rw [hpid]
    exact lookupJob_registryUpdate_self _ _ _ jP hP
  have hfail : ∀ m, run.outcome = .failure m →
      lookupJob (afterTerminalStore s0 jobId run) jobId =
      some { jP with status := "failed", progress := 100,
                     message := "Errore durante il processo di stampa.",
                     error := some m } := by
    intro m hm
    unfold afterTerminalStore terminalUpdate
    rw [hm]
    exact lookupJob_registryUpdate_self _ _ _ jP hP
  refine ⟨?_, ?_, ?_, ?_⟩
  · rw [htr]
    exact List.mem_cons_of_mem _ (List.mem_cons_of_mem _
      (List.mem_append_right _ (List.mem_cons_self _ _)))
  · intro pid hpid
    exact ⟨_, hsucc pid hpid, rfl, rfl, rfl, rfl⟩
  · intro m hm
    exact ⟨_, hfail m hm, rfl, rfl, rfl, rfl⟩
  · have hTterm : ∃ jT, lookupJob (afterTerminalStore s0 jobId run) jobId = some jT ∧
        (jT.status = "completed" ∨ jT.status = "failed") := by
      cases hout : run.outcome with
      | success pid => exact ⟨_, hsucc pid hout, Or.inl rfl⟩
      | failure m => exact ⟨_, hfail m hout, Or.inr rfl⟩
    obtain ⟨jT, hTl, hTst⟩ := hTterm
    have hlast : lastD (processTrace s0 jobId true bootError run fe uf) s0 =
        lastD (finallyStates (afterTerminalStore s0 jobId run) jobId fe uf)
          (afterTerminalStore s0 jobId run) := by
      rw [htr]
      exact lastD_append_cons
        (s0 :: preparingUpdate s0 jobId ::
          progressStates (preparingUpdate s0 jobId) jobId run.progressCalls) _ _ _
    rcases finallyStates_facts (afterTerminalStore s0 jobId run) jobId fe uf jT hTl with
      hfe | ⟨u, j', hque, hul, hust, -⟩
    · rw [hlast, hfe]
      exact ⟨jT, hTl, hTst⟩
    · rw [hlast, hque]
      refine ⟨j', hul, ?_⟩
      rw [hust]
      exact hTst

/-- Witness for C1 at a concrete store, job and failing backend run. -/
theorem pipeline_terminal_write_witness :
    lookupJob sampleStore "job1" = some sampleJob ∧
    (∃ j, lookupJob (afterTerminalStore sampleStore "job1" offlineRun) "job1" = some j ∧
      j.status = "failed" ∧ j.progress = 100 ∧ j.error = some "printer offline" ∧
      j.message = "Errore durante il processo di stampa.") ∧
    (∃ j, lookupJob
        (lastD (processTrace sampleStore "job1" true none offlineRun false false)
          sampleStore) "job1" = some j ∧
      (j.status = "completed" ∨ j.status = "failed")) :=
  ⟨by decide,
   (pipeline_terminal_write sampleStore "job1" sampleJob offlineRun none false false
      (by decide)).2.2.1 "printer offline" rfl,
   (pipeline_terminal_write sampleStore "job1" sampleJob offlineRun none false false
      (by decide)).2.2.2⟩

/-! ## C2: monotone progress along the pipeline's store updates -/

@[simp] theorem sumPercentsOf_nil : sumPercentsOf [] = [] := rfl

@[simp] theorem sumPercentsOf_cons_prog (p : Int) (m : String) (evs : List SumEv) :
    sumPercentsOf (SumEv.prog p m :: evs) = p :: sumPercentsOf evs := rfl

@[simp] theorem sumPercentsOf_cons_run (c : List String) (evs : List SumEv) :
    sumPercentsOf (SumEv.runCmd c :: evs) = sumPercentsOf evs := rfl

@[simp] theorem sumPercentsOf_cons_make (p : Nat) (evs : List SumEv) :
    sumPercentsOf (SumEv.makeTempPdf p :: evs) = sumPercentsOf evs := rfl

@[simp] theorem sumPercentsOf_cons_delete (p : Nat) (evs : List SumEv) :
    sumPercentsOf (SumEv.deleteTempPdf p :: evs) = sumPercentsOf evs := rfl

@[simp] theorem sumPercentsOf_append (l1 l2 : List SumEv) :
    sumPercentsOf (l1 ++ l2) = sumPercentsOf l1 ++ sumPercentsOf l2 :=
  List.filterMap_append l1 l2 _

/-- The percents of the extracted progress calls are the trace's
percents. -/
theorem progCallsOf_map_fst :
    ∀ evs : List Ev, (progCallsOf evs).map Prod.fst = percentsOf evs := by
  intro evs
  induction evs with
  | nil => rfl
  | cons e t ih =>
    cases e <;> simp [progCallsOf, percentsOf, List.filterMap_cons] at ih ⊢ <;>
      exact ih

/-- Same for the Windows backend. -/
theorem sumProgCallsOf_map_fst :
    ∀ evs : List SumEv, (sumProgCallsOf evs).map Prod.fst = sumPercentsOf evs := by
  intro evs
  induction evs with
  | nil => rfl
  | cons e t ih =>
    cases e <;> simp [sumProgCallsOf, sumPercentsOf, List.filterMap_cons] at ih ⊢ <;>
      exact ih

/-- Chain the queued value, a monotone bounded block, the terminal 100
and the constant tail. -/
theorem chain'_le_sandwich :
    ∀ (P : List Int) (a b : Int) (F : List Int),
      List.Chain' (· ≤ ·) P →
      (∀ h ∈ P.head?, a ≤ h) →
      (∀ p ∈ P, p ≤ b) →
      a ≤ b →
      List.Chain' (· ≤ ·) (b :: F) →
      List.Chain' (· ≤ ·) (a :: (P ++ b :: F)) := by
  intro P
  induction P with
  | nil =>
    intro a b F _ _ _ hab hF
    exact List.chain'_cons.mpr ⟨hab, hF⟩
  | cons p P' ih =>
    intro a b F hP hhead hhi hab hF
    refine List.chain'_cons.mpr ⟨hhead p (by simp), ?_⟩
    exact ih p b F (List.chain'_cons'.mp hP).2 (List.chain'_cons'.mp hP).1
      (fun q hq => hhi q (List.mem_cons_of_mem _ hq)) (hhi p (by simp)) hF

/-- The percents emitted by `CupsPrinterBackend.print_file` are
non-decreasing and lie in `[40, 92]`. -/
theorem cups_percents (env : CupsEnv) (opts : PrintOptions) :
    List.Chain' (· ≤ ·) (percentsOf (cupsPrintFile env opts).1) ∧
    ∀ p ∈ percentsOf (cupsPrintFile env opts).1, 40 ≤ p ∧ p ≤ 92 := by
  by_cases hf : env.fileExists = true
  · by_cases hcp : opts.copies < 1
    · have he : (cupsPrintFile env opts).1 = [] := by
        unfold cupsPrintFile; simp [hf, hcp]
      rw [he]
      exact ⟨List.chain'_nil, by simp⟩
    · by_cases hr : env.lpResult.returncode = 0
      · cases hjid : extractJobId env.lpResult.stdout with
        | some jid =>
          have he : (cupsPrintFile env opts).1 =
              Ev.prog 40 "Invio del documento alla coda locale." ::
              Ev.runCmd (lpCommand opts env.pathStr) ::
              Ev.prog 65 ("Job " ++ jid ++ " accodato, controllo avanzamento.") ::
              waitForRelease env.queue opts.printer jid := by
            unfold cupsPrintFile; simp [hf, hcp, hr, hjid]
          rw [he, percentsOf_cons_prog, percentsOf_cons_run, percentsOf_cons_prog]
          obtain ⟨hwchain, hwb⟩ := waitAux_percents env.queue opts.printer jid 12 1
          have h70 : min (90 : Int) (68 + ((1 : Nat) : Int) * 2) = 70 := by norm_num
          constructor
          · refine List.chain'_cons.mpr ⟨by norm_num, ?_⟩
            refine List.chain'_cons'.mpr ⟨?_, hwchain⟩
            intro q hq
            have hb := (hwb q (List.mem_of_mem_head? hq)).1
            rw [h70] at hb
            omega
          · intro p hp
            rcases List.mem_cons.mp hp with rfl | hp
            · norm_num
            rcases List.mem_cons.mp hp with rfl | hp
            · norm_num
            obtain ⟨hb1, hb2⟩ := hwb p hp
            rw [h70] at hb1
            exact ⟨by omega, hb2⟩
        | none =>
          have he : (cupsPrintFile env opts).1 =
              [Ev.prog 40 "Invio del documento alla coda locale.",
               Ev.runCmd (lpCommand opts env.pathStr),
               Ev.prog 85 "Documento accodato."] := by
            unfold cupsPrintFile; simp [hf, hcp, hr, hjid]
          rw [he]
          simp only [percentsOf_cons_prog, percentsOf_cons_run, percentsOf_nil]
          refine ⟨List.chain'_cons.mpr ⟨by norm_num, List.chain'_singleton _⟩, ?_⟩
          intro p hp
          simp only [List.mem_cons, List.not_mem_nil, or_false] at hp
          rcases hp with rfl | rfl <;> norm_num
      · have he : (cupsPrintFile env opts).1 =
            [Ev.prog 40 "Invio del documento alla coda locale.",
             Ev.runCmd (lpCommand opts env.pathStr)] := by
          unfold cupsPrintFile; simp [hf, hcp, hr]
        rw [he]
        simp only [percentsOf_cons_prog, percentsOf_cons_run, percentsOf_nil]
        refine ⟨List.chain'_singleton _, ?_⟩
        intro p hp
        simp only [List.mem_cons, List.not_mem_nil, or_false] at hp
        rcases hp with rfl
        norm_num
  · have hf' : env.fileExists = false := by simpa using hf
    have he : (cupsPrintFile env opts).1 = [] := by
      unfold cupsPrintFile; simp [hf']
    rw [he]
    exact ⟨List.chain'_nil, by simp⟩

/-- The percents emitted by `SumatraPrinterBackend.print_file` are
non-decreasing and lie in `[40, 92]`. -/
theorem sumatra_percents (env : SumatraEnv) (opts : PrintOptions) :
    List.Chain' (· ≤ ·) (sumPercentsOf (sumatraPrintFile env opts).1) ∧
    ∀ p ∈ sumPercentsOf (sumatraPrintFile env opts).1, 40 ≤ p ∧ p ≤ 92 := by
  have key : sumPercentsOf (sumatraPrintFile env opts).1 = [] ∨
      sumPercentsOf (sumatraPrintFile env opts).1 = [45] ∨
      sumPercentsOf (sumatraPrintFile env opts).1 = [45, 90] := by
    by_cases hf : env.fileExists = true
    · by_cases hcp : opts.copies < 1
      · left; unfold sumatraPrintFile; simp [hf, hcp]
      · cases hro : env.runOutcome with
        | timedOut =>
          right; left
          unfold sumatraPrintFile
          by_cases ht : env.isTxt = true <;>
            simp [hf, hcp, hro, ht]
        | done r =>
          by_cases hrc : r.returncode = 0
          · right; right
            unfold sumatraPrintFile
            by_cases ht : env.isTxt = true <;>
              by_cases hte : env.tempExistsAtCheck = true <;>
                simp [hf, hcp, hro, hrc, ht, hte]
          · right; left
            unfold sumatraPrintFile
            by_cases ht : env.isTxt = true <;>
              by_cases hte : env.tempExistsAtCheck = true <;>
                simp [hf, hcp, hro, hrc, ht, hte]
    · left
      have hf' : env.fileExists = false := by simpa using hf
      unfold sumatraPrintFile; simp [hf']
  rcases key with h | h | h <;> rw [h]
  · exact ⟨List.chain'_nil, by simp⟩
  · refine ⟨List.chain'_singleton _, ?_⟩
    intro p hp
    simp only [List.mem_singleton] at hp
    subst hp
    norm_num
  · refine ⟨List.chain'_cons.mpr ⟨by norm_num, List.chain'_singleton _⟩, ?_⟩
    intro p hp
    simp only [List.mem_cons, List.not_mem_nil, or_false] at hp
    rcases hp with rfl | rfl <;> norm_num

/-- The CUPS backend produces a `GoodCalls` run. -/
theorem cups_goodCalls (env : CupsEnv) (opts : PrintOptions) :
    GoodCalls (runOfCups env opts).progressCalls := by
  have hpc : (runOfCups env opts).progressCalls =
      progCallsOf (cupsPrintFile env opts).1 := rfl
  constructor
  · rw [hpc, progCallsOf_map_fst]
    exact (cups_percents env opts).1
  · intro pm hpm
    rw [hpc] at hpm
    have hmem : pm.1 ∈ percentsOf (cupsPrintFile env opts).1 := by
      rw [← progCallsOf_map_fst]
      exact List.mem_map_of_mem _ hpm
    exact (cups_percents env opts).2 pm.1 hmem

/-- The Sumatra backend produces a `GoodCalls` run. -/
theorem sumatra_goodCalls (env : SumatraEnv) (opts : PrintOptions) :
    GoodCalls (runOfSumatra env opts).progressCalls := by
  have hpc : (runOfSumatra env opts).progressCalls =
      sumProgCallsOf (sumatraPrintFile env opts).1 := rfl
  constructor
  · rw [hpc, sumProgCallsOf_map_fst]
    exact (sumatra_percents env opts).1
  · intro pm hpm
    rw [hpc] at hpm
    have hmem : pm.1 ∈ sumPercentsOf (sumatraPrintFile env opts).1 := by
      rw [← sumProgCallsOf_map_fst]
      exact List.mem_map_of_mem _ hpm
    exact (sumatra_percents env opts).2 pm.1 hmem

/-- Core of C2: for any backend run whose callback percents are
non-decreasing and lie in `[40, 92]`, a dispatched job's store states
satisfy the progress invariant. -/
theorem pipeline_progress_core (s0 : Store) (jobId : String) (j0 : PrintJob)
    (run : BackendRunModel) (bootError : Option String) (fe uf : Bool)
    (h0 : lookupJob s0 jobId = some j0) (hq : j0.status = "queued")
    (hp20 : j0.progress ≤ 20) (hgood : GoodCalls run.progressCalls) :
    ProgressInv (processTrace s0 jobId true bootError run fe uf) jobId := by
  have h1 : lookupJob (preparingUpdate s0 jobId) jobId =
      some { j0 with status := "preparing", progress := 20,
                     message := "Preparazione del file." } := by
    unfold preparingUpdate
    exact lookupJob_registryUpdate_self s0 jobId _ j0 h0
  obtain ⟨hmap, hmem, jP, hP⟩ :=
    progressStates_facts jobId run.progressCalls (preparingUpdate s0 jobId) _ h1
  have htr : processTrace s0 jobId true bootError run fe uf =
      s0 :: preparingUpdate s0 jobId ::
      (progressStates (preparingUpdate s0 jobId) jobId run.progressCalls ++
        afterTerminalStore s0 jobId run ::
        finallyStates (afterTerminalStore s0 jobId run) jobId fe uf) := by
    unfold processTrace
    rw [h0]
    rfl
  have hT : ∃ jT, lookupJob (afterTerminalStore s0 jobId run) jobId = some jT ∧
      jT.progress = 100 ∧ (jT.status = "completed" ∨ jT.status = "failed") := by
    cases hout : run.outcome with
    | success pid =>
      have hl : lookupJob (afterTerminalStore s0 jobId run) jobId =
          some { jP with status := "completed", progress := 100,
                         message := "Stampa inviata con successo.",
                         printerJobId := pid, error := none } := by
        unfold afterTerminalStore terminalUpdate
        rw [hout]
        exact lookupJob_registryUpdate_self _ _ _ jP hP
      exact ⟨_, hl, rfl, Or.inl rfl⟩
    | failure m =>
      have hl : lookupJob (afterTerminalStore s0 jobId run) jobId =
          some { jP with status := "failed", progress := 100,
                         message := "Errore durante il processo di stampa.",
                         error := some m } := by
        unfold afterTerminalStore terminalUpdate
        rw [hout]
        exact lookupJob_registryUpdate_self _ _ _ jP hP
      exact ⟨_, hl, rfl, Or.inr rfl⟩
  obtain ⟨jT, hTl, hT100, hTst⟩ := hT
  have hfin2 : finallyStates (afterTerminalStore s0 jobId run) jobId fe uf = [] ∨
      ∃ u, finallyStates (afterTerminalStore s0 jobId run) jobId fe uf = [u] ∧
        progAt u jobId = 100 ∧ TerminalAt u jobId := by
    rcases finallyStates_facts (afterTerminalStore s0 jobId run) jobId fe uf jT hTl with
      h | ⟨u, j', hqu, hul, hust, hup⟩
    · exact Or.inl h
    · refine Or.inr ⟨u, hqu, ?_, ⟨j', hul, by rw [hust]; exact hTst⟩⟩
      simp [progAt, hul, hup, hT100]
  have hfinAll : ∀ u ∈ finallyStates (afterTerminalStore s0 jobId run) jobId fe uf,
      progAt u jobId = 100 ∧ TerminalAt u jobId := by
    rcases hfin2 with h | ⟨u, hfu, hu100, huterm⟩
    · rw [h]; intro u hu; simp at hu
    · rw [hfu]; intro v hv
      rcases List.mem_singleton.mp hv with rfl
      exact ⟨hu100, huterm⟩
  have hps0 : progAt s0 jobId = j0.progress := by simp [progAt, h0]
  have hps1 : progAt (preparingUpdate s0 jobId) jobId = 20 := by simp [progAt, h1]
  have hpsT : progAt (afterTerminalStore s0 jobId run) jobId = 100 := by
    simp [progAt, hTl, hT100]
  have hclamp : run.progressCalls.map (fun pm => clampProgress pm.1) =
      run.progressCalls.map Prod.fst := by
    apply List.map_congr_left
    intro pm hpm
    have hb := hgood.2 pm hpm
    unfold clampProgress
    omega
  have hnt : ∀ (s : Store) (j : PrintJob) (st : String), lookupJob s jobId = some j →
      j.status = st → st ≠ "completed" → st ≠ "failed" → ¬ TerminalAt s jobId := by
    intro s j st hl hst hn1 hn2 ht
    obtain ⟨j2, hl2, ht2⟩ := ht
    rw [hl] at hl2
    have he := Option.some.inj hl2
    subst he
    rcases ht2 with h | h
    · exact hn1 (hst.symm.trans h)
    · exact hn2 (hst.symm.trans h)
  unfold ProgressInv
  refine ⟨?_, ?_, ?_, ?_⟩
  · -- monotone chain
    rw [htr]
    simp only [List.map_cons, List.map_append, hmap, hclamp, hps0, hps1, hpsT]
    refine List.chain'_cons.mpr ⟨hp20, ?_⟩
    refine chain'_le_sandwich _ 20 100 _ hgood.1 ?_ ?_ (by omega) ?_
    · intro h hh
      obtain ⟨pm, hpm, hpe⟩ := List.mem_map.mp (List.mem_of_mem_head? hh)
      have := hgood.2 pm hpm
      omega
    · intro p hp
      obtain ⟨pm, hpm, hpe⟩ := List.mem_map.mp hp
      have := hgood.2 pm hpm
      omega
    · rcases hfin2 with h | ⟨u, hfu, hu100, -⟩
      · rw [h]
        exact List.chain'_singleton _
      · rw [hfu]
        simp only [List.map_cons, List.map_nil, hu100]
        exact List.chain'_cons.mpr ⟨le_refl _, List.chain'_singleton _⟩
  · -- terminal states carry progress 100
    rw [htr]
    intro s hs ht
    rcases List.mem_cons.mp hs with he | hs
    · subst he
      exact absurd ht (hnt _ j0 "queued" h0 hq (by decide) (by decide))
    rcases List.mem_cons.mp hs with he | hs
    · subst he
      exact absurd ht (hnt _ _ "preparing" h1 rfl (by decide) (by decide))
    rcases List.mem_append.mp hs with hs | hs
    · obtain ⟨j', hl', hst'⟩ := hmem s hs
      exact absurd ht (hnt s j' "printing" hl' hst' (by decide) (by decide))
    rcases List.mem_cons.mp hs with he | hs
    · subst he
      exact hpsT
    · exact (hfinAll s hs).1
  · -- progress never exceeds 100
    rw [htr]
    intro s hs
    rcases List.mem_cons.mp hs with rfl | hs
    · rw [hps0]; omega
    rcases List.mem_cons.mp hs with rfl | hs
    · rw [hps1]; omega
    rcases List.mem_append.mp hs with hs | hs
    · have hmm : progAt s jobId ∈
          (progressStates (preparingUpdate s0 jobId) jobId run.progressCalls).map
            (fun t => progAt t jobId) := List.mem_map_of_mem _ hs
      rw [hmap, hclamp] at hmm
      obtain ⟨pm, hpm, hpe⟩ := List.mem_map.mp hmm
      have := hgood.2 pm hpm
      omega
    rcases List.mem_cons.mp hs with rfl | hs
    · rw [hpsT]
    · rw [(hfinAll s hs).1]
  · -- the run ends terminal with progress 100
    rcases hfin2 with h | ⟨u, hfu, hu100, huterm⟩
    · refine ⟨afterTerminalStore s0 jobId run, ?_, ⟨jT, hTl, hTst⟩, hpsT⟩
      rw [htr, h]
      have hsh : s0 :: preparingUpdate s0 jobId ::
          (progressStates (preparingUpdate s0 jobId) jobId run.progressCalls ++
            [afterTerminalStore s0 jobId run]) =
          (s0 :: preparingUpdate s0 jobId ::
            progressStates (preparingUpdate s0 jobId) jobId run.progressCalls) ++
            [afterTerminalStore s0 jobId run] := by
        simp
      rw [hsh]
      exact List.getLast?_concat _
    · refine ⟨u, ?_, huterm, hu100⟩
      rw [htr, hfu]
      have hsh : s0 :: preparingUpdate s0 jobId ::
          (progressStates (preparingUpdate s0 jobId) jobId run.progressCalls ++
            afterTerminalStore s0 jobId run :: [u]) =
          ((s0 :: preparingUpdate s0 jobId ::
            progressStates (preparingUpdate s0 jobId) jobId run.progressCalls) ++
            [afterTerminalStore s0 jobId run]) ++ [u] := by
        simp
      rw [hsh]
      exact List.getLast?_concat _

/-- C2: for every store holding the dispatched job in its queued state
(progress at most the preparing value 20), the pipeline run over either
concrete backend produces store states whose progress is monotonically
non-decreasing, equals 100 at every terminal state, never exceeds 100,
and ends terminal at exactly 100 — so it never changes after the terminal
write. -/
theorem pipeline_progress_monotone :
    ∀ (s0 : Store) (jobId : String) (j0 : PrintJob),
      lookupJob s0 jobId = some j0 → j0.status = "queued" → j0.progress ≤ 20 →
      (∀ (env : CupsEnv) (opts : PrintOptions) (bootError : Option String)
        (fe uf : Bool),
        ProgressInv (processTrace s0 jobId true bootError (runOfCups env opts) fe uf)
          jobId) ∧
      (∀ (env : SumatraEnv) (opts : PrintOptions) (bootError : Option String)
        (fe uf : Bool),
        ProgressInv (processTrace s0 jobId true bootError (runOfSumatra env opts) fe uf)
          jobId) := by
  intro s0 jobId j0 h0 hq hp
  exact ⟨fun env opts be fe uf =>
      pipeline_progress_core s0 jobId j0 (runOfCups env opts) be fe uf h0 hq hp
        (cups_goodCalls env opts),
    fun env opts be fe uf =>
      pipeline_progress_core s0 jobId j0 (runOfSumatra env opts) be fe uf h0 hq hp
        (sumatra_goodCalls env opts)⟩

/-- Witness for C2 at a concrete store, job and CUPS environment. -/
theorem pipeline_progress_monotone_witness :
    lookupJob sampleStore "job1" = some sampleJob ∧
    sampleJob.status = "queued" ∧ sampleJob.progress ≤ 20 ∧
    ProgressInv
      (processTrace sampleStore "job1" true none (runOfCups sampleCupsEnv sampleOpts)
        false false) "job1" :=
  ⟨by decide, by decide, by decide,
   (pipeline_progress_monotone sampleStore "job1" sampleJob (by decide) (by decide)
      (by decide)).1 sampleCupsEnv sampleOpts none false false⟩

/-! ## C9 and C10: `create_job` validation and upload consumption -/

/-- A key absent from the key list is not found. -/
theorem assocLookup_none_of_not_mem {β : Type} :
    ∀ (l : List (String × β)) (k : String),
      k ∉ l.map Prod.fst → assocLookup l k = none := by
  intro l
  induction l with
  | nil => intro k _; rfl
  | cons hd tl ih =>
    intro k h
    obtain ⟨k', v⟩ := hd
    simp only [List.map_cons, List.mem_cons] at h
    push_neg at h
    simp only [assocLookup]
    rw [if_neg (fun he => h.1 he.symm)]
    exact ih k h.2

/-- Removing a key from a duplicate-free map makes lookups of it fail. -/
theorem assocLookup_remove_self {β : Type} :
    ∀ (l : List (String × β)) (k : String), (l.map Prod.fst).Nodup →
      assocLookup (assocRemove l k) k = none := by
  intro l
  induction l with
  | nil => intro k _; rfl
  | cons hd tl ih =>
    intro k h
    obtain ⟨k', v⟩ := hd
    simp only [List.map_cons, List.nodup_cons] at h
    by_cases hk : k' = k
    · subst hk
      simp only [assocRemove, if_pos rfl]
      exact assocLookup_none_of_not_mem tl k' h.1
    · simp only [assocRemove, if_neg hk, assocLookup]
      exact ih k h.2

/-- A deleted path no longer exists. -/
theorem not_mem_fsRemove (fs : List Nat) (p : Nat) : p ∉ fsRemove fs p := by
  unfold fsRemove
  intro h
  have := List.mem_filter.mp h
  simp at this

/-- `_consume_uploaded_file` never touches the job registry. -/
theorem consumeUploadedFile_jobs (st : AppState) (uid : String) :
    ((consumeUploadedFile st uid).2).jobs = st.jobs := by
  unfold consumeUploadedFile
  repeat' split
  all_goals rfl

/-- `_consume_uploaded_file` never touches the file system. -/
theorem consumeUploadedFile_fs (st : AppState) (uid : String) :
    ((consumeUploadedFile st uid).2).fs = st.fs := by
  unfold consumeUploadedFile
  repeat' split
  all_goals rfl

/-- A completed, on-disk staged upload is consumed: the entry is popped
from the registry and returned. -/
theorem consumeUploadedFile_ok (st : AppState) (uid : String)
    (entry : UploadedFileEntry) (p : Nat)
    (hval : validUploadId (pyStripStr uid) = true)
    (hlook : assocLookup st.uploads (pyStripStr uid) = some entry)
    (hcomp : entry.completed = true) (hsp : entry.storedPath = some p)
    (hfs : p ∈ st.fs) :
    consumeUploadedFile st uid =
      (ConsumeRes.ok entry p,
       { st with uploads := assocRemove st.uploads (pyStripStr uid) }) := by
  unfold consumeUploadedFile assocPop
  simp [hval, hlook, hcomp, hsp, hfs]

/-- First cleanup step: job and upload registries untouched, only unlink
events added. -/
theorem errCleanupPrepared_frame (st : AppState) (entry : UploadedFileEntry)
    (pp : Option Nat) (evs : List AppEv) :
    (errCleanupPrepared st entry pp evs).1.jobs = st.jobs ∧
    (errCleanupPrepared st entry pp evs).1.uploads = st.uploads ∧
    ∀ e ∈ (errCleanupPrepared st entry pp evs).2, e ∈ evs ∨ ∃ q, e = AppEv.unlink q := by
  unfold errCleanupPrepared
  cases pp with
  | none => exact ⟨rfl, rfl, fun e he => Or.inl he⟩
  | some q =>
    by_cases hc : q ∈ st.fs ∧ some q ≠ entry.storedPath
    · simp only [if_pos hc]
      refine ⟨by trivial, by trivial, fun e he => ?_⟩
      rcases List.mem_append.mp he with he | he
      · exact Or.inl he
      · exact Or.inr ⟨q, List.mem_singleton.mp he⟩
    · simp only [if_neg hc]
      exact ⟨by trivial, by trivial, fun e he => Or.inl he⟩

/-- Second cleanup step: job and upload registries untouched, only unlink
events added. -/
theorem errCleanupStored_frame (st : AppState) (entry : UploadedFileEntry)
    (evs : List AppEv) :
    (errCleanupStored st entry evs).1.jobs = st.jobs ∧
    (errCleanupStored st entry evs).1.uploads = st.uploads ∧
    ∀ e ∈ (errCleanupStored st entry evs).2, e ∈ evs ∨ ∃ q, e = AppEv.unlink q := by
  unfold errCleanupStored
  cases hsp : entry.storedPath with
  | none => exact ⟨rfl, rfl, fun e he => Or.inl he⟩
  | some q =>
    by_cases hc : q ∈ st.fs
    · simp only [if_pos hc]
      refine ⟨by trivial, by trivial, fun e he => ?_⟩
      rcases List.mem_append.mp he with he | he
      · exact Or.inl he
      · exact Or.inr ⟨q, List.mem_singleton.mp he⟩
    · simp only [if_neg hc]
      exact ⟨by trivial, by trivial, fun e he => Or.inl he⟩

/-- The error branch renders the failed snapshot. -/
theorem createJobErrCleanup_resp (env : CreateJobEnv) (st : AppState)
    (entry : UploadedFileEntry) (pp : Option Nat) (msg : String) (evs : List AppEv) :
    (createJobErrCleanup env st entry pp msg evs).1 =
      CreateJobResp.jobView
        (errorJob env.errJobId entry.filename "Richiesta non valida." (some msg)) :=
  rfl

/-- The error branch never touches the job registry. -/
theorem createJobErrCleanup_jobs (env : CreateJobEnv) (st : AppState)
    (entry : UploadedFileEntry) (pp : Option Nat) (msg : String) (evs : List AppEv) :
    (createJobErrCleanup env st entry pp msg evs).2.1.jobs = st.jobs := by
  calc (createJobErrCleanup env st entry pp msg evs).2.1.jobs
      = (errCleanupStored (errCleanupPrepared st entry pp evs).1 entry
          (errCleanupPrepared st entry pp evs).2).1.jobs := rfl
    _ = (errCleanupPrepared st entry pp evs).1.jobs :=
          (errCleanupStored_frame _ entry _).1
    _ = st.jobs := (errCleanupPrepared_frame st entry pp evs).1

/-- The error branch never touches the upload registry. -/
theorem createJobErrCleanup_uploads (env : CreateJobEnv) (st : AppState)
    (entry : UploadedFileEntry) (pp : Option Nat) (msg : String) (evs : List AppEv) :
    (createJobErrCleanup env st entry pp msg evs).2.1.uploads = st.uploads := by
  calc (createJobErrCleanup env st entry pp msg evs).2.1.uploads
      = (errCleanupStored (errCleanupPrepared st entry pp evs).1 entry
          (errCleanupPrepared st entry pp evs).2).1.uploads := rfl
    _ = (errCleanupPrepared st entry pp evs).1.uploads :=
          (errCleanupStored_frame _ entry _).2.1
    _ = st.uploads := (errCleanupPrepared_frame st entry pp evs).2.1

/-- The error branch only adds unlink events. -/
theorem createJobErrCleanup_events (env : CreateJobEnv) (st : AppState)
    (entry : UploadedFileEntry) (pp : Option Nat) (msg : String) (evs : List AppEv) :
    ∀ e ∈ (createJobErrCleanup env st entry pp msg evs).2.2,
      e ∈ evs ∨ ∃ q, e = AppEv.unlink q := by
  intro e he
  have he2 : e ∈ (errCleanupStored (errCleanupPrepared st entry pp evs).1 entry
      (errCleanupPrepared st entry pp evs).2).2 := he
  rcases (errCleanupStored_frame _ entry _).2.2 e he2 with he3 | he3
  · exact (errCleanupPrepared_frame st entry pp evs).2.2 e he3
  · exact Or.inr he3

/-- With no prepared file, an existing stored file is deleted by the
error branch. -/
theorem createJobErrCleanup_stored (env : CreateJobEnv) (st : AppState)
    (entry : UploadedFileEntry) (p : Nat) (msg : String) (evs : List AppEv)
    (hsp : entry.storedPath = some p) (hfs : p ∈ st.fs) :
    (createJobErrCleanup env st entry none msg evs).2.1 =
      { st with fs := fsRemove st.fs p } ∧
    (createJobErrCleanup env st entry none msg evs).2.2 =
      evs ++ [AppEv.unlink p] := by
  unfold createJobErrCleanup errCleanupPrepared errCleanupStored
  simp [hsp, hfs]

/-- `create_job` when no backend was constructed at boot. -/
theorem createJob_unavailable (st : AppState) (env : CreateJobEnv)
    (req : CreateJobReq) (hb : env.backendAvailable = false) :
    createJob st env req =
      (CreateJobResp.jobView (errorJob env.errJobId "sconosciuto"
        "Backend di stampa non disponibile."
        (some (env.bootError.getD
          "Configura CUPS o SumatraPDF e riavvia l\x27applicazione."))),
       st, []) := by
  unfold createJob
  simp [hb]

/-- `create_job` when the upload id is malformed. -/
theorem createJob_badid_case (st st' : AppState) (env : CreateJobEnv)
    (req : CreateJobReq) (hb : env.backendAvailable = true)
    (hcons : consumeUploadedFile st req.uploadedFileId = (ConsumeRes.httpBadId, st')) :
    createJob st env req = (CreateJobResp.httpError 400 "Upload ID non valido.", st', []) := by
  unfold createJob
  simp [hb, hcons]

/-- `create_job` when `_consume_uploaded_file` raises `ValueError`. -/
theorem createJob_fail_case (st st' : AppState) (env : CreateJobEnv)
    (req : CreateJobReq) (msg : String) (hb : env.backendAvailable = true)
    (hcons : consumeUploadedFile st req.uploadedFileId = (ConsumeRes.fail msg, st')) :
    createJob st env req =
      (CreateJobResp.jobView (errorJob env.errJobId "sconosciuto"
        "Richiesta non valida." (some msg)), st', []) := by
  unfold createJob
  simp [hb, hcons]

/-- `create_job` when the upload is consumed successfully. -/
theorem createJob_ok_case (st st' : AppState) (env : CreateJobEnv)
    (req : CreateJobReq) (entry : UploadedFileEntry) (p : Nat)
    (hb : env.backendAvailable = true)
    (hcons : consumeUploadedFile st req.uploadedFileId = (ConsumeRes.ok entry p, st')) :
    createJob st env req = createJobValidated st' env req entry p := by
  unfold createJob
  simp [hb, hcons]

/-- An out-of-bounds copy count sends the validated path into the error
branch before `list_printers` (possibly preceded by the color check). -/
theorem createJobValidated_copies_fail (st1 : AppState) (env : CreateJobEnv)
    (req : CreateJobReq) (entry : UploadedFileEntry) (p : Nat)
    (hcv : copiesValid req.copies = false) :
    ∃ msg, createJobValidated st1 env req entry p =
      createJobErrCleanup env st1 entry none msg [] := by
  unfold createJobValidated
  by_cases hc : colorModeValid req.colorMode = true
  · exact ⟨"Il numero di copie deve essere tra 1 e 99.", by simp [hc, hcv]⟩
  · have hc' : colorModeValid req.colorMode = false := by simpa using hc
    exact ⟨"Modalita colore non valida.", by simp [hc']⟩

/-- Any of the four post-consumption failures sends the run into the
error branch with no prepared file. -/
theorem createJobValidated_fail (st1 : AppState) (env : CreateJobEnv)
    (req : CreateJobReq) (entry : UploadedFileEntry) (p : Nat)
    (hf : FailAfterConsume env req) :
    ∃ msg evs0, createJobValidated st1 env req entry p =
      createJobErrCleanup env st1 entry none msg evs0 := by
  unfold createJobValidated
  by_cases hc : colorModeValid req.colorMode = true
  · by_cases hcp : copiesValid req.copies = true
    · rcases hlp : env.listPrintersResult with m | printers
      · exact ⟨m, [AppEv.backendListPrinters], by simp [hc, hcp, hlp]⟩
      · by_cases hpr : req.printer ∈ printers
        · rcases hpp : env.prepResult with m | pp
          · exact ⟨m, [AppEv.backendListPrinters], by simp [hc, hcp, hlp, hpr, hpp]⟩
          · exfalso
            rcases hf with h | h | ⟨ps', hps', hnp⟩ | ⟨m, hm⟩
            · rw [hc] at h; cases h
            · rw [hcp] at h; cases h
            · rw [hlp] at hps'
              injection hps' with he
              subst he
              exact hnp hpr
            · rw [hpp] at hm; cases hm
        · exact ⟨"Stampante selezionata non valida.", [AppEv.backendListPrinters],
            by simp [hc, hcp, hlp, hpr]⟩
    · have hcp' : copiesValid req.copies = false := by simpa using hcp
      exact ⟨"Il numero di copie deve essere tra 1 e 99.", [], by simp [hc, hcp']⟩
  · have hc' : colorModeValid req.colorMode = false := by simpa using hc
    exact ⟨"Modalita colore non valida.", [], by simp [hc']⟩

/-- A dispatch event can only arise from the success path, whose guard
validated the copy count; the dispatched job carries the request's copy
count. -/
theorem createJobValidated_submit (st1 : AppState) (env : CreateJobEnv)
    (req : CreateJobReq) (entry : UploadedFileEntry) (p : Nat) (j : PrintJob)
    (hmem : AppEv.executorSubmit j ∈ (createJobValidated st1 env req entry p).2.2) :
    copiesValid req.copies = true ∧ j.copies = req.copies := by
  unfold createJobValidated at hmem
  by_cases hc : colorModeValid req.colorMode = true
  · by_cases hcp : copiesValid req.copies = true
    · rcases hlp : env.listPrintersResult with m | printers
      · simp only [hc, hcp, hlp, Bool.not_true] at hmem
        simp at hmem
        rcases createJobErrCleanup_events env st1 entry none m
          [AppEv.backendListPrinters] _ hmem with h | ⟨q, h⟩ <;> simp at h
      · by_cases hpr : req.printer ∈ printers
        · rcases hpp : env.prepResult with m | pp
          · simp only [hc, hcp, hlp, hpp] at hmem
            simp [hpr] at hmem
            rcases createJobErrCleanup_events env st1 entry none m
              [AppEv.backendListPrinters] _ hmem with h | ⟨q, h⟩ <;> simp at h
          · simp only [hc, hcp, hlp, hpp] at hmem
            simp [hpr] at hmem
            refine ⟨hcp, ?_⟩
            rw [hmem]
        · simp only [hc, hcp, hlp] at hmem
          simp [hpr] at hmem
          rcases createJobErrCleanup_events env st1 entry none
            "Stampante selezionata non valida." [AppEv.backendListPrinters] _ hmem with
            h | ⟨q, h⟩ <;> simp at h
    · have hcp' : copiesValid req.copies = false := by simpa using hcp
      simp [hc, hcp'] at hmem
      rcases createJobErrCleanup_events env st1 entry none
        "Il numero di copie deve essere tra 1 e 99." [] _ hmem with h | ⟨q, h⟩ <;>
        simp at h
  · have hc' : colorModeValid req.colorMode = false := by simpa using hc
    simp [hc'] at hmem
    rcases createJobErrCleanup_events env st1 entry none
      "Modalita colore non valida." [] _ hmem with h | ⟨q, h⟩ <;> simp at h

/-- C9: a `create_job` request with copies outside `[1, 99]` is rejected
synchronously — a failed snapshot with progress 100 is rendered (or, for
a malformed upload id, an HTTP 400), the job registry is untouched, and
no backend call, job creation or dispatch happens; conversely, every job
handed to the background pipeline has copies in `[1, 99]`. -/
theorem createJob_copies_gate :
    (∀ (st : AppState) (env : CreateJobEnv) (req : CreateJobReq),
      req.copies < 1 ∨ 99 < req.copies →
      ((∃ j, (createJob st env req).1 = CreateJobResp.jobView j ∧
          j.status = "failed" ∧ j.progress = 100) ∨
        (createJob st env req).1 = CreateJobResp.httpError 400 "Upload ID non valido.") ∧
      (createJob st env req).2.1.jobs = st.jobs ∧
      AppEv.backendListPrinters ∉ (createJob st env req).2.2 ∧
      (∀ j, AppEv.executorSubmit j ∉ (createJob st env req).2.2) ∧
      (∀ i, AppEv.jobCreated i ∉ (createJob st env req).2.2)) ∧
    (∀ (st : AppState) (env : CreateJobEnv) (req : CreateJobReq) (j : PrintJob),
      AppEv.executorSubmit j ∈ (createJob st env req).2.2 →
      1 ≤ j.copies ∧ j.copies ≤ 99) := by
  constructor
  · intro st env req hcv'
    have hcv : copiesValid req.copies = false := by
      unfold copiesValid
      rcases hcv' with h | h <;> simp <;> omega
    by_cases hb : env.backendAvailable = true
    · rcases hcons : consumeUploadedFile st req.uploadedFileId with ⟨res, st'⟩
      have hjobs : st'.jobs = st.jobs := by
        have h := consumeUploadedFile_jobs st req.uploadedFileId
        rw [hcons] at h
        exact h
      cases res with
      | httpBadId =>
        rw [createJob_badid_case st st' env req hb hcons]
        exact ⟨Or.inr rfl, hjobs, by simp, fun j => by simp, fun i => by simp⟩
      | fail msg =>
        rw [createJob_fail_case st st' env req msg hb hcons]
        exact ⟨Or.inl ⟨_, rfl, rfl, rfl⟩, hjobs, by simp, fun j => by simp,
          fun i => by simp⟩
      | ok entry p =>
        rw [createJob_ok_case st st' env req entry p hb hcons]
        obtain ⟨msg, heq⟩ := createJobValidated_copies_fail st' env req entry p hcv
        rw [heq]
        refine ⟨Or.inl ⟨_, createJobErrCleanup_resp env st' entry none msg [], rfl, rfl⟩,
          ?_, ?_, ?_, ?_⟩
        · rw [createJobErrCleanup_jobs]
          exact hjobs
        · intro hmem'
          rcases createJobErrCleanup_events env st' entry none msg [] _ hmem' with
            h | ⟨q, h⟩ <;> simp at h
        · intro j hmem'
          rcases createJobErrCleanup_events env st' entry none msg [] _ hmem' with
            h | ⟨q, h⟩ <;> simp at h
        · intro i hmem'
          rcases createJobErrCleanup_events env st' entry none msg [] _ hmem' with
            h | ⟨q, h⟩ <;> simp at h
    · have hb' : env.backendAvailable = false := by simpa using hb
      rw [createJob_unavailable st env req hb']
      exact ⟨Or.inl ⟨_, rfl, rfl, rfl⟩, rfl, by simp, fun j => by simp, fun i => by simp⟩
  · intro st env req j hmem'
    by_cases hb : env.backendAvailable = true
    · rcases hcons : consumeUploadedFile st req.uploadedFileId with ⟨res, st'⟩
      cases res with
      | httpBadId =>
        rw [createJob_badid_case st st' env req hb hcons] at hmem'
        simp at hmem'
      | fail msg =>
        rw [createJob_fail_case st st' env req msg hb hcons] at hmem'
        simp at hmem'
      | ok entry p =>
        rw [createJob_ok_case st st' env req entry p hb hcons] at hmem'
        obtain ⟨hcp, hje⟩ := createJobValidated_submit st' env req entry p j hmem'
        rw [hje]
        unfold copiesValid at hcp
        simp at hcp
        omega
    · have hb' : env.backendAvailable = false := by simpa using hb
      rw [createJob_unavailable st env req hb'] at hmem'
      simp at hmem'

/-- Witness for C9: a zero-copies request against a healthy environment
with a staged upload. -/
theorem createJob_copies_gate_witness :
    (badCopiesReq.copies < 1 ∨ 99 < badCopiesReq.copies) ∧
    (((∃ j, (createJob sampleAppState sampleCreateEnv badCopiesReq).1 =
          CreateJobResp.jobView j ∧ j.status = "failed" ∧ j.progress = 100) ∨
        (createJob sampleAppState sampleCreateEnv badCopiesReq).1 =
          CreateJobResp.httpError 400 "Upload ID non valido.") ∧
      (createJob sampleAppState sampleCreateEnv badCopiesReq).2.1.jobs =
        sampleAppState.jobs ∧
      AppEv.backendListPrinters ∉ (createJob sampleAppState sampleCreateEnv badCopiesReq).2.2 ∧
      (∀ j, AppEv.executorSubmit j ∉
        (createJob sampleAppState sampleCreateEnv badCopiesReq).2.2) ∧
      (∀ i, AppEv.jobCreated i ∉
        (createJob sampleAppState sampleCreateEnv badCopiesReq).2.2)) :=
  ⟨Or.inl (by decide),
   createJob_copies_gate.1 sampleAppState sampleCreateEnv badCopiesReq
     (Or.inl (by decide))⟩

/-- C10: a submission that fails validation after the staged upload was
consumed is not atomic with respect to the upload store — the entry was
already popped and the stored file is deleted in the error branch, so a
retry with the same upload id fails with the "not uploaded or incomplete"
error and changes nothing. -/
theorem createJob_upload_not_atomic :
    ∀ (st : AppState) (env env2 : CreateJobEnv) (req req2 : CreateJobReq)
      (entry : UploadedFileEntry) (p : Nat),
      env.backendAvailable = true → env2.backendAvailable = true →
      (st.uploads.map Prod.fst).Nodup →
      validUploadId (pyStripStr req.uploadedFileId) = true →
      assocLookup st.uploads (pyStripStr req.uploadedFileId) = some entry →
      entry.completed = true → entry.storedPath = some p → p ∈ st.fs →
      FailAfterConsume env req →
      pyStripStr req2.uploadedFileId = pyStripStr req.uploadedFileId →
      (∃ j, (createJob st env req).1 = CreateJobResp.jobView j ∧
        j.status = "failed" ∧ j.progress = 100) ∧
      assocLookup (createJob st env req).2.1.uploads
        (pyStripStr req.uploadedFileId) = none ∧
      p ∉ (createJob st env req).2.1.fs ∧
      (∃ j2, (createJob (createJob st env req).2.1 env2 req2).1 =
          CreateJobResp.jobView j2 ∧ j2.status = "failed" ∧ j2.progress = 100 ∧
          j2.error = some "File non caricato o upload incompleto.") ∧
      (createJob (createJob st env req).2.1 env2 req2).2.1 =
        (createJob st env req).2.1 := by
  intro st env env2 req req2 entry p hb hb2 hnodup hval hlook hcomp hsp hfs hF hreq2
  have hcons := consumeUploadedFile_ok st req.uploadedFileId entry p hval hlook hcomp hsp hfs
  have h1 : createJob st env req = createJobValidated
      { st with uploads := assocRemove st.uploads (pyStripStr req.uploadedFileId) }
      env req entry p :=
    createJob_ok_case st _ env req entry p hb hcons
  obtain ⟨msg, evs0, heq⟩ := createJobValidated_fail
    { st with uploads := assocRemove st.uploads (pyStripStr req.uploadedFileId) }
    env req entry p hF
  have hclean := createJobErrCleanup_stored env
    { st with uploads := assocRemove st.uploads (pyStripStr req.uploadedFileId) }
    entry p msg evs0 hsp hfs
  have hstate : (createJobErrCleanup env
      { st with uploads := assocRemove st.uploads (pyStripStr req.uploadedFileId) }
      entry none msg evs0).2.1 =
      { uploads := assocRemove st.uploads (pyStripStr req.uploadedFileId),
        jobs := st.jobs, fs := fsRemove st.fs p } := by
    rw [hclean.1]
  have hlook2 : assocLookup
      (assocRemove st.uploads (pyStripStr req.uploadedFileId))
      (pyStripStr req.uploadedFileId) = none :=
    assocLookup_remove_self st.uploads _ hnodup
  have hcons2 : consumeUploadedFile
      { uploads := assocRemove st.uploads (pyStripStr req.uploadedFileId),
        jobs := st.jobs, fs := fsRemove st.fs p } req2.uploadedFileId =
      (ConsumeRes.fail "File non caricato o upload incompleto.",
       { uploads := assocRemove st.uploads (pyStripStr req.uploadedFileId),
         jobs := st.jobs, fs := fsRemove st.fs p }) := by
    unfold consumeUploadedFile assocPop
    rw [hreq2]
    simp [hval, hlook2]
  rw [h1, heq]
  refine ⟨⟨_, createJobErrCleanup_resp env _ entry none msg evs0, rfl, rfl⟩,
    ?_, ?_, ?_, ?_⟩
  · rw [createJobErrCleanup_uploads]
    exact hlook2
  · rw [hclean.1]
    exact not_mem_fsRemove _ p
  · rw [hstate, createJob_fail_case _ _ env2 req2 _ hb2 hcons2]
    exact ⟨_, rfl, rfl, rfl, rfl⟩
  · rw [hstate, createJob_fail_case _ _ env2 req2 _ hb2 hcons2]

/-- Witness for C10: the staged upload is consumed by a zero-copies
request and a retry with the same upload id fails. -/
theorem createJob_upload_not_atomic_witness :
    (sampleCreateEnv.backendAvailable = true ∧
      (sampleAppState.uploads.map Prod.fst).Nodup ∧
      validUploadId (pyStripStr badCopiesReq.uploadedFileId) = true ∧
      assocLookup sampleAppState.uploads (pyStripStr badCopiesReq.uploadedFileId) =
        some sampleEntry ∧
      sampleEntry.completed = true ∧ sampleEntry.storedPath = some 3 ∧
      3 ∈ sampleAppState.fs ∧ FailAfterConsume sampleCreateEnv badCopiesReq) ∧
    assocLookup (createJob sampleAppState sampleCreateEnv badCopiesReq).2.1.uploads
      (pyStripStr badCopiesReq.uploadedFileId) = none ∧
    3 ∉ (createJob sampleAppState sampleCreateEnv badCopiesReq).2.1.fs ∧
    (∃ j2, (createJob (createJob sampleAppState sampleCreateEnv badCopiesReq).2.1
        sampleCreateEnv badCopiesReq).1 = CreateJobResp.jobView j2 ∧
      j2.status = "failed" ∧ j2.progress = 100 ∧
      j2.error = some "File non caricato o upload incompleto.") := by
  have h := createJob_upload_not_atomic sampleAppState sampleCreateEnv sampleCreateEnv
    badCopiesReq badCopiesReq sampleEntry 3 (by decide) (by decide) (by decide)
    (by decide) (by decide) (by decide) (by decide) (by decide)
    (Or.inr (Or.inl (by decide))) rfl
  exact ⟨⟨by decide, by decide, by decide, by decide, by decide, by decide, by decide,
    Or.inr (Or.inl (by decide))⟩, h.2.1, h.2.2.1, h.2.2.2.1⟩
